import Mathlib

/-!
# Generated AMQP record decoders of `experimental/cordacpp`

Embedding of the two generated headers

* `net/corda/core/contracts/TransactionState.h`
* `net/corda/core/transactions/TraversableTransaction.h`

The constructors `TransactionState(proton::codec::decoder&)` and
`TraversableTransaction(proton::codec::decoder&)` are translated statement by
statement.  What they call but do not define (`proton::codec::decoder`,
`net::corda::CompositeTypeGuard`, the overloads of `net::corda::Parser::read_to`
and the sibling generated classes) enters the embedding as parameters; a second
part instantiates those parameters with the protocol of the specification.
-/

namespace Corda

/-! ## Part 1: the generated code over an arbitrary runtime -/

/-- Modelled from the spec: the wire tags a cursor can report (`proton::type_id`),
with its distinguished NULL tag; the enumeration itself is declared outside the
two headers. -/
inductive type_id
  | NULL_TYPE
  | INT
  | STRING
  | LIST
  | DESCRIBED
  deriving DecidableEq, Repr

/-- A call a constructor body makes that can move the cursor.  The lookahead
`decoder.next_type()` does not move it and is not recorded. -/
inductive Call
  | guard (name descriptor : String) (expected : Nat)
  | read_to (field : String)
  | next
  | guard_exit
  deriving DecidableEq, Repr

/-- State threaded through a constructor body: the `decoder&` argument and the
calls made on it so far. -/
structure Machine (σ : Type) where
  decoder : σ
  calls : List Call

/-- Outcome of running (part of) a constructor: either it ran to the end with
value `a`, or an exception `e` escaped.  After an exception only the calls made
are recorded; no object exists. -/
inductive Result (σ ε α : Type)
  | ok (a : α) (m : Machine σ)
  | thrown (e : ε) (calls : List Call)

/-- A collaborator that reads a value of type `α` from the cursor or throws. -/
abbrev Rd (σ ε α : Type) := σ → Except ε (α × σ)

/-- The two members of `proton::codec::decoder` the generated code calls. -/
structure Decoder (σ ε : Type) where
  next_type : σ → Except ε type_id
  next : σ → σ

/-- The class `net::corda::CompositeTypeGuard`: its constructor, called with
`(decoder, name, descriptor, count)`, and what happens to the cursor when the
guard object goes out of scope (a destructor does not throw). -/
structure CompositeTypeGuard (σ ε : Type) where
  ctor : String → String → Nat → σ → Except ε σ
  dtor : σ → σ

/-- The classes the two headers only forward-declare. -/
structure Classes where
  AttachmentConstraint : Type
  ContractState : Type
  Party : Type
  SecureHash : Type
  Command : Type
  ComponentGroup : Type
  StateRef : Type
  TimeWindow : Type

/-- The handle `net::corda::ptr<T>`: empty until something is stored in it. -/
abbrev ptr (α : Type) := Option α

/-- Data members of `template <class T> class TransactionState`, in declaration
order.  `encumbrance` is a plain `int32_t`: it always holds some integer and has
no absent state (no arithmetic is done on it, so its width plays no role). -/
structure TransactionState (K : Classes) (T : Type) where
  constraint : ptr K.AttachmentConstraint
  contract : String
  data : ptr T
  encumbrance : Int
  notary : ptr K.Party

/-- The default-constructed record `TransactionState<T>()`: the constructor is
`= default`, so value-initialisation zeroes the `int32_t` member and
default-constructs the members of class type. -/
def TransactionState.default {K : Classes} {T : Type} : TransactionState K T :=
  { constraint := none, contract := "", data := none, encumbrance := 0, notary := none }

/-- The members when the body of the decoding constructor starts: that
constructor has no member initialisers, so the members of class type are
default-constructed and the `int32_t` member holds an indeterminate value, here
the parameter `indeterminate`. -/
def TransactionState.shell {K : Classes} {T : Type} (indeterminate : Int) :
    TransactionState K T :=
  { constraint := none, contract := "", data := none, encumbrance := indeterminate,
    notary := none }

/-- Names of the data members of `TransactionState`, in declaration order. -/
def TransactionState.fields : List String :=
  ["constraint", "contract", "data", "encumbrance", "notary"]

/-- Data members of `class TraversableTransaction`, in declaration order. -/
structure TraversableTransaction (K : Classes) where
  attachments : List (ptr K.SecureHash)
  commands : List (ptr K.Command)
  component_groups : List (ptr K.ComponentGroup)
  inputs : List (ptr K.StateRef)
  notary : ptr K.Party
  outputs : List (ptr (TransactionState K K.ContractState))
  references : List (ptr K.StateRef)
  time_window : ptr K.TimeWindow

/-- The default-constructed record `TraversableTransaction()`; every member is
of class type, so this is also the state of the members when the body of the
decoding constructor starts. -/
def TraversableTransaction.default {K : Classes} : TraversableTransaction K :=
  { attachments := [], commands := [], component_groups := [], inputs := [],
    notary := none, outputs := [], references := [], time_window := none }

/-- Names of the data members of `TraversableTransaction`, in declaration order. -/
def TraversableTransaction.fields : List String :=
  ["attachments", "commands", "component_groups", "inputs", "notary", "outputs",
    "references", "time_window"]

/-- The overloads of `net::corda::Parser::read_to` the two constructors use,
one per member type.  Two overloads are passed separately: the one for `ptr<T>`,
which depends on the template argument, and the one for
`std::list<ptr<TransactionState<ContractState>>>`, which depends on the
`TransactionState` constructor itself. -/
structure Parser (σ ε : Type) (K : Classes) where
  AttachmentConstraint : Rd σ ε (ptr K.AttachmentConstraint)
  string : Rd σ ε String
  int32_t : Rd σ ε Int
  Party : Rd σ ε (ptr K.Party)
  list_SecureHash : Rd σ ε (List (ptr K.SecureHash))
  list_Command : Rd σ ε (List (ptr K.Command))
  list_ComponentGroup : Rd σ ε (List (ptr K.ComponentGroup))
  list_StateRef : Rd σ ε (List (ptr K.StateRef))
  TimeWindow : Rd σ ε (ptr K.TimeWindow)

/-- One statement of a constructor body, acting on the object under
construction `ρ` and the cursor. -/
abbrev Step (σ ε ρ : Type) := ρ → Machine σ → Result σ ε ρ

section Generic

variable {σ ε ρ α : Type}

/-- The statement `net::corda::Parser::read_to(decoder, field);`. -/
def read_to (field : String) (rd : Rd σ ε α) (set : ρ → α → ρ) : Step σ ε ρ :=
  fun r m =>
    match rd m.decoder with
    | .ok (v, c) => .ok (set r v) ⟨c, m.calls ++ [Call.read_to field]⟩
    | .error e => .thrown e (m.calls ++ [Call.read_to field])

/-- The statement
`if (decoder.next_type() != proton::NULL_TYPE) net::corda::Parser::read_to(decoder, field); else decoder.next();`. -/
def nullable (D : Decoder σ ε) (field : String) (rd : Rd σ ε α) (set : ρ → α → ρ) :
    Step σ ε ρ :=
  fun r m =>
    match D.next_type m.decoder with
    | .error e => .thrown e m.calls
    | .ok t =>
      if t ≠ type_id.NULL_TYPE then read_to field rd set r m
      else .ok r ⟨D.next m.decoder, m.calls ++ [Call.next]⟩

/-- Statements executed one after the other; an exception ends the run. -/
def runSteps : List (Step σ ε ρ) → Step σ ε ρ
  | [], r, m => .ok r m
  | s :: ss, r, m =>
    match s r m with
    | .ok r1 m1 => runSteps ss r1 m1
    | .thrown e cs => .thrown e cs

/-- End of the scope of the guard object: its destructor runs, both when the
body finished and when an exception unwinds through the body. -/
def CompositeTypeGuard.finish (G : CompositeTypeGuard σ ε) : Result σ ε ρ → Result σ ε ρ
  | .ok r m => .ok r ⟨G.dtor m.decoder, m.calls ++ [Call.guard_exit]⟩
  | .thrown e cs => .thrown e (cs ++ [Call.guard_exit])

/-- The declaration `net::corda::CompositeTypeGuard guard(decoder, name, descriptor(), n);`
followed by the rest of the block.  When the guard constructor throws, the
guard was never built and nothing else runs. -/
def CompositeTypeGuard.scope (G : CompositeTypeGuard σ ε) (name descriptor : String)
    (expected : Nat) (body : Machine σ → Result σ ε ρ) (m : Machine σ) : Result σ ε ρ :=
  match G.ctor name descriptor expected m.decoder with
  | .error e => .thrown e (m.calls ++ [Call.guard name descriptor expected])
  | .ok c => G.finish (body ⟨c, m.calls ++ [Call.guard name descriptor expected]⟩)

end Generic

/-- Classes that can be written as the template argument `T`. -/
inductive TypeArg
  | ContractState
  | other (name : String)
  deriving DecidableEq, Repr

/-- The explicit specialisation
`TransactionState<ContractState>::descriptor()` at the end of the header. -/
def TransactionState.descriptor_ContractState : String := "net.corda:EXC6szFsBMi53/1So8maDg=="

/-- The member `descriptor()` of `TransactionState<T>`: the class template only
declares it, and the header defines it for `T = ContractState` alone. -/
def TransactionState.descriptor : TypeArg → Option String
  | .ContractState => some TransactionState.descriptor_ContractState
  | .other _ => none

/-- The name literal the `TransactionState` constructor passes to its guard. -/
def TransactionState.name : String :=
  "net.corda.core.contracts.TransactionState<net.corda.core.contracts.ContractState>"

/-- The member `descriptor()` of `TraversableTransaction`. -/
def TraversableTransaction.descriptor : String := "net.corda:7uh5OkEW1sLz08a+OOUFJg=="

/-- The name literal the `TraversableTransaction` constructor passes to its guard. -/
def TraversableTransaction.name : String :=
  "class net.corda.core.transactions.TraversableTransaction"

section Constructors

variable {σ ε : Type} {K : Classes} {T : Type}

/-- The five field statements of `TransactionState(proton::codec::decoder&)`,
lines 45 to 49 of the header. -/
def TransactionState.fieldSteps (D : Decoder σ ε) (P : Parser σ ε K) (read_data : Rd σ ε (ptr T)) :
    List (Step σ ε (TransactionState K T)) :=
  [ read_to "constraint" P.AttachmentConstraint (fun r v => { r with constraint := v }),
    read_to "contract" P.string (fun r v => { r with contract := v }),
    read_to "data" read_data (fun r v => { r with data := v }),
    nullable D "encumbrance" P.int32_t (fun r v => { r with encumbrance := v }),
    read_to "notary" P.Party (fun r v => { r with notary := v }) ]

/-- The constructor `TransactionState(proton::codec::decoder &decoder)`;
`descriptor` is what `descriptor()` returns for the instantiation at hand and
`indeterminate` what the `int32_t` member holds when the body starts. -/
def TransactionState.decode (D : Decoder σ ε) (G : CompositeTypeGuard σ ε) (P : Parser σ ε K)
    (read_data : Rd σ ε (ptr T)) (descriptor : String) (indeterminate : Int) (m : Machine σ) :
    Result σ ε (TransactionState K T) :=
  G.scope TransactionState.name descriptor 5
    (runSteps (TransactionState.fieldSteps D P read_data) (TransactionState.shell indeterminate))
    m

/-- The eight field statements of `TraversableTransaction(proton::codec::decoder&)`,
lines 76 to 83 of the header. -/
def TraversableTransaction.fieldSteps (D : Decoder σ ε) (P : Parser σ ε K)
    (read_outputs : Rd σ ε (List (ptr (TransactionState K K.ContractState)))) :
    List (Step σ ε (TraversableTransaction K)) :=
  [ read_to "attachments" P.list_SecureHash (fun r v => { r with attachments := v }),
    read_to "commands" P.list_Command (fun r v => { r with commands := v }),
    read_to "component_groups" P.list_ComponentGroup (fun r v => { r with component_groups := v }),
    read_to "inputs" P.list_StateRef (fun r v => { r with inputs := v }),
    nullable D "notary" P.Party (fun r v => { r with notary := v }),
    read_to "outputs" read_outputs (fun r v => { r with outputs := v }),
    read_to "references" P.list_StateRef (fun r v => { r with references := v }),
    nullable D "time_window" P.TimeWindow (fun r v => { r with time_window := v }) ]

/-- The constructor `TraversableTransaction(proton::codec::decoder &decoder)`.
It names no base initialiser, so the base `CoreTransaction` is
default-constructed and never sees the decoder. -/
def TraversableTransaction.decode (D : Decoder σ ε) (G : CompositeTypeGuard σ ε)
    (P : Parser σ ε K) (read_outputs : Rd σ ε (List (ptr (TransactionState K K.ContractState))))
    (m : Machine σ) : Result σ ε (TraversableTransaction K) :=
  G.scope TraversableTransaction.name TraversableTransaction.descriptor 8
    (runSteps (TraversableTransaction.fieldSteps D P read_outputs) TraversableTransaction.default) m

/-- What the caller of a constructor sees: the object and the moved cursor, or
the exception. -/
def Result.toExcept {α : Type} : Result σ ε α → Except ε (α × σ)
  | .ok a m => .ok (a, m.decoder)
  | .thrown e _ => .error e

/-- The calls recorded by an outcome. -/
def Result.calls {α : Type} : Result σ ε α → List Call
  | .ok _ m => m.calls
  | .thrown _ cs => cs

/-- An outcome with its value, if any, passed through `f`. -/
def Result.map {α β : Type} (f : α → β) : Result σ ε α → Result σ ε β
  | .ok a m => .ok (f a) m
  | .thrown e cs => .thrown e cs

/-- A reader with the value it reads passed through `f`. -/
def Rd.mapValue {α β : Type} (f : α → β) (rd : Rd σ ε α) : Rd σ ε β :=
  fun c =>
    match rd c with
    | .ok (v, c1) => .ok (f v, c1)
    | .error e => .error e

/-- The same record over another template argument, its data handle passed
through `f`. -/
def TransactionState.mapData {T1 : Type} (f : ptr T → ptr T1) (r : TransactionState K T) :
    TransactionState K T1 :=
  { constraint := r.constraint, contract := r.contract, data := f r.data,
    encumbrance := r.encumbrance, notary := r.notary }

/-- The expression `TransactionState<T>(decoder)` as a reader on the cursor. -/
def TransactionState.read (D : Decoder σ ε) (G : CompositeTypeGuard σ ε) (P : Parser σ ε K)
    (read_data : Rd σ ε (ptr T)) (descriptor : String) (indeterminate : Int) :
    Rd σ ε (TransactionState K T) :=
  fun c => (TransactionState.decode D G P read_data descriptor indeterminate ⟨c, []⟩).toExcept

/-- The expression `TraversableTransaction(decoder)` as a reader on the cursor. -/
def TraversableTransaction.read (D : Decoder σ ε) (G : CompositeTypeGuard σ ε)
    (P : Parser σ ε K) (read_outputs : Rd σ ε (List (ptr (TransactionState K K.ContractState)))) :
    Rd σ ε (TraversableTransaction K) :=
  fun c => (TraversableTransaction.decode D G P read_outputs ⟨c, []⟩).toExcept

end Constructors

/-! ## Part 2: the decoding protocol of the specification

The collaborators of the generated code, written from the specification's
sections on StreamCursor, FieldReader and CompositeGuard. -/

/-- Modelled from the spec: the error taxonomy of the decoding protocol; the
exception types thrown by the collaborators are declared outside the two
headers. -/
inductive DecodeError
  | TruncatedStreamError
  | TypeMismatchError
  | SchemaViolationError
  | UnsupportedGenericInstantiationError
  deriving DecidableEq, Repr

/-- Modelled from the spec: one wire-tagged value of an envelope: the NULL
marker, a scalar, an ordered collection, or a composite carrying its descriptor
(semantic name and content fingerprint) and its field values; the wire format
is defined outside the two headers. -/
inductive Value
  | null
  | int (n : Int)
  | str (s : String)
  | list (elems : List Value)
  | composite (name fingerprint : String) (fields : List Value)

/-- Modelled from the spec: the wire tag of a value. -/
def Value.tag : Value → type_id
  | .null => type_id.NULL_TYPE
  | .int _ => type_id.INT
  | .str _ => type_id.STRING
  | .list _ => type_id.LIST
  | .composite _ _ _ => type_id.DESCRIBED

/-- Modelled from the spec: the StreamCursor, the position of the
`proton::codec::decoder`: the values still unread at the current nesting level
(head of the list), then those of each enclosing level. -/
abbrev StreamCursor := List (List Value)

namespace StreamCursor

/-- Modelled from the spec: `peek_tag()`, the non-consuming lookahead behind
`decoder.next_type()`; nothing left to look at is a truncated stream. -/
def peek_tag : StreamCursor → Except DecodeError type_id
  | (v :: _) :: _ => .ok v.tag
  | _ => .error DecodeError.TruncatedStreamError

/-- Modelled from the spec: `advance_null()`, behind `decoder.next()`: the next
value is consumed and discarded. -/
def advance_null : StreamCursor → StreamCursor
  | (_ :: rest) :: outer => rest :: outer
  | c => c

/-- Modelled from the spec: `enter_composite()`: consumes the header of the
next composite and yields its name, fingerprint and declared field count; the
cursor then stands before the first field.  A value of another shape is a
schema violation. -/
def enter_composite : StreamCursor → Except DecodeError ((String × String × Nat) × StreamCursor)
  | (.composite name fingerprint fs :: rest) :: outer =>
    .ok ((name, fingerprint, fs.length), fs :: rest :: outer)
  | (_ :: _) :: _ => .error DecodeError.SchemaViolationError
  | _ => .error DecodeError.TruncatedStreamError

/-- Modelled from the spec: leaving a nesting level: whatever is unread at that
level is discarded and the cursor stands past the enclosing value. -/
def leave : StreamCursor → StreamCursor
  | _ :: outer => outer
  | [] => []

end StreamCursor

/-- Modelled from the spec: `CompositeGuard.validate(cursor, expected_name,
expected_fingerprint, expected_min_field_count)`, the constructor of
`net::corda::CompositeTypeGuard` (declared in `corda.h`).  It consumes the
header, rejects another name with `TypeMismatchError`, does not compare the
fingerprint, and when the envelope declares fewer fields than expected the
missing trailing fields read as NULL, so that a nullable field statement leaves
its field absent and a mandatory one is refused by its reader. -/
def CompositeGuard.validate (expected_name _expected_fingerprint : String)
    (expected_min_field_count : Nat) (c : StreamCursor) : Except DecodeError StreamCursor :=
  match StreamCursor.enter_composite c with
  | .error e => .error e
  | .ok ((name, _, declared), c1) =>
    if name ≠ expected_name then .error DecodeError.TypeMismatchError
    else
      match c1 with
      | fs :: outer =>
        .ok ((fs ++ List.replicate (expected_min_field_count - declared) Value.null) :: outer)
      | [] => .ok []

/-- Modelled from the spec: the guard of the protocol: validation on entry, and
at the end of its scope the surplus trailing fields are discarded unread. -/
def specGuard : CompositeTypeGuard StreamCursor DecodeError :=
  { ctor := CompositeGuard.validate, dtor := StreamCursor.leave }

/-- Modelled from the spec: the cursor operations the generated code calls. -/
def specDecoder : Decoder StreamCursor DecodeError :=
  { next_type := StreamCursor.peek_tag, next := StreamCursor.advance_null }

namespace FieldReader

/-- Modelled from the spec: FieldReader for an `int32_t` scalar; the value is
stored as read, no arithmetic is done on it. -/
def int32_t : Rd StreamCursor DecodeError Int
  | (.int n :: rest) :: outer => .ok (n, rest :: outer)
  | (_ :: _) :: _ => .error DecodeError.SchemaViolationError
  | _ => .error DecodeError.TruncatedStreamError

/-- Modelled from the spec: FieldReader for a `std::string` scalar. -/
def string : Rd StreamCursor DecodeError String
  | (.str s :: rest) :: outer => .ok (s, rest :: outer)
  | (_ :: _) :: _ => .error DecodeError.SchemaViolationError
  | _ => .error DecodeError.TruncatedStreamError

/-- Modelled from the spec: the RecordDecoder of a sibling generated class whose
header is not among the two: it consumes exactly the encoding of one value and
its result depends on that value alone. -/
def record {α : Type} (f : Value → Except DecodeError α) : Rd StreamCursor DecodeError α
  | (v :: rest) :: outer =>
    match f v with
    | .ok a => .ok (a, rest :: outer)
    | .error e => .error e
  | _ => .error DecodeError.TruncatedStreamError

/-- Modelled from the spec: FieldReader for an owned reference `ptr<X>`: the
RecordDecoder of `X` is invoked on the cursor and its result stored; a NULL tag
where the reader is called is a schema violation. -/
def owned {α : Type} (dec : Rd StreamCursor DecodeError α) : Rd StreamCursor DecodeError (ptr α) :=
  fun c =>
    match StreamCursor.peek_tag c with
    | .error e => .error e
    | .ok t =>
      if t = type_id.NULL_TYPE then .error DecodeError.SchemaViolationError
      else
        match dec c with
        | .ok (a, c1) => .ok (some a, c1)
        | .error e => .error e

/-- Modelled from the spec: decoding `n` elements in order. -/
def elements {α : Type} (elem : Rd StreamCursor DecodeError α) :
    Nat → StreamCursor → Except DecodeError (List α × StreamCursor)
  | 0, c => .ok ([], c)
  | n + 1, c =>
    match elem c with
    | .error e => .error e
    | .ok (a, c1) =>
      match elements elem n c1 with
      | .error e => .error e
      | .ok (as, c2) => .ok (a :: as, c2)

/-- Modelled from the spec: FieldReader for an ordered collection `std::list<X>`:
the header gives the element count, that many elements are decoded in order,
and the cursor ends past the collection. -/
def collection {α : Type} (elem : Rd StreamCursor DecodeError α) :
    Rd StreamCursor DecodeError (List α)
  | (.list xs :: rest) :: outer =>
    match elements elem xs.length (xs :: rest :: outer) with
    | .error e => .error e
    | .ok (as, c1) => .ok (as, StreamCursor.leave c1)
  | (_ :: _) :: _ => .error DecodeError.SchemaViolationError
  | _ => .error DecodeError.TruncatedStreamError

end FieldReader

/-- Modelled from the spec: the RecordDecoders of the sibling generated classes
(their headers are not among the two), each as a function of the encoded value. -/
structure RecordDecoders (K : Classes) where
  AttachmentConstraint : Value → Except DecodeError K.AttachmentConstraint
  ContractState : Value → Except DecodeError K.ContractState
  Party : Value → Except DecodeError K.Party
  SecureHash : Value → Except DecodeError K.SecureHash
  Command : Value → Except DecodeError K.Command
  ComponentGroup : Value → Except DecodeError K.ComponentGroup
  StateRef : Value → Except DecodeError K.StateRef
  TimeWindow : Value → Except DecodeError K.TimeWindow

section Spec

variable {K : Classes}

/-- Modelled from the spec: the overloads of `Parser::read_to` (declared in
`corda.h`), by the static type of the member. -/
def specParser (Ds : RecordDecoders K) : Parser StreamCursor DecodeError K :=
  { AttachmentConstraint := FieldReader.owned (FieldReader.record Ds.AttachmentConstraint)
    string := FieldReader.string
    int32_t := FieldReader.int32_t
    Party := FieldReader.owned (FieldReader.record Ds.Party)
    list_SecureHash := FieldReader.collection (FieldReader.owned (FieldReader.record Ds.SecureHash))
    list_Command := FieldReader.collection (FieldReader.owned (FieldReader.record Ds.Command))
    list_ComponentGroup :=
      FieldReader.collection (FieldReader.owned (FieldReader.record Ds.ComponentGroup))
    list_StateRef := FieldReader.collection (FieldReader.owned (FieldReader.record Ds.StateRef))
    TimeWindow := FieldReader.owned (FieldReader.record Ds.TimeWindow) }

/-- Modelled from the spec: `read_to` for `ptr<ContractState>`. -/
def specReadData (Ds : RecordDecoders K) : Rd StreamCursor DecodeError (ptr K.ContractState) :=
  FieldReader.owned (FieldReader.record Ds.ContractState)

/-- The constructor `TransactionState<ContractState>(decoder)` running against
the protocol of the specification; `u` is the indeterminate value of the
`int32_t` member when the body starts. -/
def specTransactionState (Ds : RecordDecoders K) (u : Int) :
    Rd StreamCursor DecodeError (TransactionState K K.ContractState) :=
  TransactionState.read specDecoder specGuard (specParser Ds) (specReadData Ds)
    TransactionState.descriptor_ContractState u

/-- Modelled from the spec: `read_to` for
`std::list<ptr<TransactionState<ContractState>>>`: each element is built by the
`TransactionState` constructor. -/
def specReadOutputs (Ds : RecordDecoders K) (u : Int) :
    Rd StreamCursor DecodeError (List (ptr (TransactionState K K.ContractState))) :=
  FieldReader.collection (FieldReader.owned (specTransactionState Ds u))

/-- The constructor `TraversableTransaction(decoder)` running against the
protocol of the specification. -/
def specTraversableTransaction (Ds : RecordDecoders K) (u : Int) :
    Rd StreamCursor DecodeError (TraversableTransaction K) :=
  TraversableTransaction.read specDecoder specGuard (specParser Ds) (specReadOutputs Ds u)

end Spec

/-! ### Vocabulary for reasoning about the protocol -/

section Vocabulary

variable {α ρ : Type}

/-- Decoding one value on its own: the reader runs on a cursor holding just
that value. -/
def valueOf (rd : Rd StreamCursor DecodeError α) (v : Value) : Except DecodeError α :=
  match rd [[v]] with
  | .ok (a, _) => .ok a
  | .error e => .error e

/-- Decoding the values of a list one by one, in order. -/
def decodeAll (rd : Rd StreamCursor DecodeError α) : List Value → Except DecodeError (List α)
  | [] => .ok []
  | v :: vs =>
    match valueOf rd v with
    | .error e => .error e
    | .ok a =>
      match decodeAll rd vs with
      | .error e => .error e
      | .ok as => .ok (a :: as)

/-- A reader consumes exactly the next value and depends on nothing else. -/
def Local (rd : Rd StreamCursor DecodeError α) : Prop :=
  ∀ v rest outer, rd ((v :: rest) :: outer) =
    match valueOf rd v with
    | .ok a => .ok (a, rest :: outer)
    | .error e => .error e

/-- A statement consumes exactly the next value and depends on nothing else. -/
def StepLocal (s : Step StreamCursor DecodeError ρ) : Prop :=
  ∀ r v rest outer calls, s r ⟨(v :: rest) :: outer, calls⟩ =
    match s r ⟨[[v]], calls⟩ with
    | .ok r1 m1 => .ok r1 ⟨rest :: outer, m1.calls⟩
    | .thrown e cs => .thrown e cs

end Vocabulary

/-! ### A concrete instance -/

/-- Every sibling class represented by the field values of its composite. -/
def demoClasses : Classes :=
  { AttachmentConstraint := List Value, ContractState := List Value, Party := List Value,
    SecureHash := List Value, Command := List Value, ComponentGroup := List Value,
    StateRef := List Value, TimeWindow := List Value }

/-- A sibling decoder that accepts any composite and keeps its field values. -/
def demoRecord : Value → Except DecodeError (List Value)
  | .composite _ _ fs => .ok fs
  | _ => .error DecodeError.SchemaViolationError

/-- Sibling decoders of the concrete instance. -/
def demoDecoders : RecordDecoders demoClasses :=
  { AttachmentConstraint := demoRecord, ContractState := demoRecord, Party := demoRecord,
    SecureHash := demoRecord, Command := demoRecord, ComponentGroup := demoRecord,
    StateRef := demoRecord, TimeWindow := demoRecord }

/-- A composite of a sibling class with one integer field. -/
def demoObj (n : Int) : Value := .composite "X" "fp" [.int n]

/-- Field values of a well-formed `TransactionState` envelope whose encumbrance
is written as NULL. -/
def demoStateFields : List Value := [demoObj 1, .str "c", demoObj 2, .null, demoObj 3]

/-- A well-formed `TransactionState` envelope. -/
def demoState : Value :=
  .composite TransactionState.name TransactionState.descriptor_ContractState demoStateFields

/-- The record the constructor builds from `demoState` when the `int32_t`
member held 7 at the start of the body. -/
def demoStateRecord : TransactionState demoClasses demoClasses.ContractState :=
  { constraint := some [.int 1], contract := "c", data := some [.int 2], encumbrance := 7,
    notary := some [.int 3] }

/-- Field values of a well-formed `TraversableTransaction` envelope with all
eight fields, notary and time_window written as NULL. -/
def demoTxFields : List Value :=
  [.list [demoObj 10], .list [], .list [], .list [demoObj 11], .null,
    .list [demoState, demoState], .list [], .null]

/-- A well-formed `TraversableTransaction` envelope. -/
def demoTx : Value :=
  .composite TraversableTransaction.name TraversableTransaction.descriptor demoTxFields

/-- The record the constructor builds from `demoTx` (nested states as in
`demoStateRecord`). -/
def demoTxRecord : TraversableTransaction demoClasses :=
  { attachments := [some [.int 10]], commands := [], component_groups := [],
    inputs := [some [.int 11]], notary := none,
    outputs := [some demoStateRecord, some demoStateRecord], references := [],
    time_window := none }

/-- The call with which the `TransactionState` constructor starts. -/
def demoStateGuard : Call :=
  Call.guard TransactionState.name TransactionState.descriptor_ContractState 5

/-- The call with which the `TraversableTransaction` constructor starts. -/
def demoTxGuard : Call :=
  Call.guard TraversableTransaction.name TraversableTransaction.descriptor 8

/-- The machine when `demoTx` has had seven fields read. -/
def demoTxMachineAt7 : Machine StreamCursor :=
  ⟨[[.null], []],
    [demoTxGuard, Call.read_to "attachments", Call.read_to "commands",
      Call.read_to "component_groups", Call.read_to "inputs", Call.next,
      Call.read_to "outputs", Call.read_to "references"]⟩

/-- A `TransactionState` envelope whose mandatory contract field is NULL. -/
def demoStateNullContract : Value :=
  .composite TransactionState.name TransactionState.descriptor_ContractState
    [demoObj 1, .null, demoObj 2, .null, demoObj 3]

/-- The record under construction when `demoStateNullContract` has had one
field read. -/
def demoStateAt1 : TransactionState demoClasses demoClasses.ContractState :=
  { constraint := some [.int 1], contract := "", data := none, encumbrance := 7,
    notary := none }

/-- The machine when `demoStateNullContract` has had one field read. -/
def demoStateMachineAt1 : Machine StreamCursor :=
  ⟨[[.null, demoObj 2, .null, demoObj 3], []], [demoStateGuard, Call.read_to "constraint"]⟩

/-- A `TraversableTransaction` envelope whose mandatory attachments field is
NULL. -/
def demoTxNullAttachments : Value :=
  .composite TraversableTransaction.name TraversableTransaction.descriptor
    [.null, .list [], .list [], .list [], .null, .list [], .list [], .null]

section GenericLemmas

variable {σ ε ρ α β : Type}

theorem runSteps_append (xs ys : List (Step σ ε ρ)) (r : ρ) (m : Machine σ) :
    runSteps (xs ++ ys) r m =
      match runSteps xs r m with
      | .ok r1 m1 => runSteps ys r1 m1
      | .thrown e cs => .thrown e cs := by
  induction xs generalizing r m with
  | nil => simp [runSteps]
  | cons s ss ih =>
    simp only [List.cons_append, runSteps]
    cases s r m with
    | ok r1 m1 => simpa using ih r1 m1
    | thrown e cs => rfl

theorem runSteps_take_drop (k : Nat) (steps : List (Step σ ε ρ)) (r : ρ) (m : Machine σ) :
    runSteps steps r m =
      match runSteps (steps.take k) r m with
      | .ok r1 m1 => runSteps (steps.drop k) r1 m1
      | .thrown e cs => .thrown e cs := by
  rw [← runSteps_append, List.take_append_drop]

theorem read_to_preserves (get : ρ → β) {f : String} {rd : Rd σ ε α} {set : ρ → α → ρ}
    {r r1 : ρ} {m m1 : Machine σ} (h : read_to f rd set r m = .ok r1 m1)
    (hset : ∀ r v, get (set r v) = get r) : get r1 = get r := by
  unfold read_to at h
  split at h
  · cases h; exact hset _ _
  · cases h

theorem nullable_preserves (get : ρ → β) {D : Decoder σ ε} {f : String} {rd : Rd σ ε α}
    {set : ρ → α → ρ} {r r1 : ρ} {m m1 : Machine σ} (h : nullable D f rd set r m = .ok r1 m1)
    (hset : ∀ r v, get (set r v) = get r) : get r1 = get r := by
  unfold nullable at h
  split at h
  · cases h
  · split at h
    · exact read_to_preserves get h hset
    · cases h; rfl

theorem runSteps_preserves (get : ρ → β) (steps : List (Step σ ε ρ))
    (hs : ∀ s ∈ steps, ∀ r r1 m m1, s r m = .ok r1 m1 → get r1 = get r) (r r1 : ρ)
    (m m1 : Machine σ) (h : runSteps steps r m = .ok r1 m1) : get r1 = get r := by
  induction steps generalizing r m with
  | nil => simp [runSteps] at h; rw [h.1]
  | cons s ss ih =>
    simp only [runSteps] at h
    cases hsr : s r m with
    | ok r2 m2 =>
      rw [hsr] at h
      have h1 := hs s (List.mem_cons_self _ _) r r2 m m2 hsr
      have h2 := ih (fun s1 hs1 => hs s1 (List.mem_cons_of_mem _ hs1)) r2 m2 h
      rw [h2, h1]
    | thrown e cs => rw [hsr] at h; cases h

theorem scope_ok (G : CompositeTypeGuard σ ε) (name descriptor : String) (n : Nat)
    (body : Machine σ → Result σ ε ρ) (m : Machine σ) (c : σ)
    (hg : G.ctor name descriptor n m.decoder = .ok c) :
    G.scope name descriptor n body m =
      G.finish (body ⟨c, m.calls ++ [Call.guard name descriptor n]⟩) := by
  simp [CompositeTypeGuard.scope, hg]

theorem finish_ok (G : CompositeTypeGuard σ ε) (x : Result σ ε ρ) (r : ρ) (m : Machine σ)
    (h : G.finish x = .ok r m) :
    ∃ m1, x = .ok r m1 ∧ m = ⟨G.dtor m1.decoder, m1.calls ++ [Call.guard_exit]⟩ := by
  cases x with
  | ok r1 m1 =>
    simp only [CompositeTypeGuard.finish, Result.ok.injEq] at h
    exact ⟨m1, by rw [h.1], h.2.symm⟩
  | thrown e cs => simp [CompositeTypeGuard.finish] at h

theorem runSteps_cons_ok (s : Step σ ε ρ) (ss : List (Step σ ε ρ)) (r r1 : ρ)
    (m m1 : Machine σ) (h : runSteps (s :: ss) r m = .ok r1 m1) :
    ∃ r2 m2, s r m = .ok r2 m2 ∧ runSteps ss r2 m2 = .ok r1 m1 := by
  simp only [runSteps] at h
  cases hs : s r m with
  | ok r2 m2 => rw [hs] at h; exact ⟨r2, m2, rfl, h⟩
  | thrown e cs => rw [hs] at h; cases h

theorem read_to_ok_calls {f : String} {rd : Rd σ ε α} {set : ρ → α → ρ} {r r1 : ρ}
    {m m1 : Machine σ} (h : read_to f rd set r m = .ok r1 m1) :
    m1.calls = m.calls ++ [Call.read_to f] := by
  unfold read_to at h
  split at h
  · cases h; rfl
  · cases h

theorem read_to_thrown_calls {f : String} {rd : Rd σ ε α} {set : ρ → α → ρ} {r : ρ}
    {m : Machine σ} {e : ε} {cs : List Call} (h : read_to f rd set r m = .thrown e cs) :
    cs = m.calls ++ [Call.read_to f] := by
  unfold read_to at h
  split at h
  · cases h
  · cases h; rfl

theorem nullable_thrown_calls {D : Decoder σ ε} {f : String} {rd : Rd σ ε α}
    {set : ρ → α → ρ} {r : ρ} {m : Machine σ} {e : ε} {cs : List Call}
    (h : nullable D f rd set r m = .thrown e cs) :
    cs = m.calls ∨ cs = m.calls ++ [Call.read_to f] := by
  unfold nullable at h
  split at h
  · cases h; exact Or.inl rfl
  · split at h
    · exact Or.inr (read_to_thrown_calls h)
    · cases h

/-- A guarded statement list whose guard constructor throws. -/
theorem scope_guard_thrown (G : CompositeTypeGuard σ ε) (name descriptor : String) (n : Nat)
    (body : Machine σ → Result σ ε ρ) (m : Machine σ) (e : ε)
    (hg : G.ctor name descriptor n m.decoder = .error e) :
    G.scope name descriptor n body m = .thrown e (m.calls ++ [Call.guard name descriptor n]) := by
  simp [CompositeTypeGuard.scope, hg]

/-- A guarded statement list in which statement `k` throws. -/
theorem scope_step_thrown (G : CompositeTypeGuard σ ε) (name descriptor : String) (n : Nat)
    (steps : List (Step σ ε ρ)) (shell : ρ) (m0 : Machine σ) (c : σ) (k : Nat) (s : Step σ ε ρ)
    (r : ρ) (m1 : Machine σ) (e : ε) (cs : List Call)
    (hg : G.ctor name descriptor n m0.decoder = .ok c)
    (hreach : runSteps (steps.take k) shell ⟨c, m0.calls ++ [Call.guard name descriptor n]⟩ =
      .ok r m1)
    (hk : steps[k]? = some s) (hs : s r m1 = .thrown e cs) :
    G.scope name descriptor n (runSteps steps shell) m0 =
      .thrown e (cs ++ [Call.guard_exit]) := by
  rw [scope_ok G name descriptor n _ m0 c hg, runSteps_take_drop k steps, hreach]
  have hlt : k < steps.length := by
    rcases Nat.lt_or_ge k steps.length with h | h
    · exact h
    · rw [List.getElem?_eq_none h] at hk; cases hk
  have hd : steps.drop k = s :: steps.drop (k + 1) := by
    rw [List.drop_eq_getElem_cons hlt]
    rw [List.getElem?_eq_getElem hlt] at hk
    cases hk; rfl
  simp only [hd, runSteps, hs, CompositeTypeGuard.finish]

/-- A guarded statement list that returns: the guard was built and every
statement ran. -/
theorem scope_ok_inv (G : CompositeTypeGuard σ ε) (name descriptor : String) (n : Nat)
    (body : Machine σ → Result σ ε ρ) (m0 : Machine σ) (r : ρ) (m : Machine σ)
    (h : G.scope name descriptor n body m0 = .ok r m) :
    ∃ c m1, G.ctor name descriptor n m0.decoder = .ok c ∧
      body ⟨c, m0.calls ++ [Call.guard name descriptor n]⟩ = .ok r m1 ∧
      m = ⟨G.dtor m1.decoder, m1.calls ++ [Call.guard_exit]⟩ := by
  unfold CompositeTypeGuard.scope at h
  split at h
  · cases h
  · next c hc =>
    obtain ⟨m1, h1, h2⟩ := finish_ok G _ r m h
    exact ⟨c, m1, hc, h1, h2⟩

/-- The first call of a guarded statement list is the guard constructor. -/
theorem scope_calls (G : CompositeTypeGuard σ ε) (name descriptor : String) (n : Nat)
    (steps : List (Step σ ε ρ)) (shell : ρ)
    (hmono : ∀ r m, ∃ rest, (runSteps steps r m).calls = m.calls ++ rest) (m0 : Machine σ) :
    ∃ rest, (G.scope name descriptor n (runSteps steps shell) m0).calls =
      m0.calls ++ Call.guard name descriptor n :: rest := by
  unfold CompositeTypeGuard.scope
  split
  · exact ⟨[], rfl⟩
  · next c hc =>
    obtain ⟨rest, hrest⟩ := hmono shell ⟨c, m0.calls ++ [Call.guard name descriptor n]⟩
    cases hb : runSteps steps shell ⟨c, m0.calls ++ [Call.guard name descriptor n]⟩ with
    | ok r m =>
      rw [hb] at hrest
      simp only [Result.calls] at hrest
      exact ⟨rest ++ [Call.guard_exit], by simp [CompositeTypeGuard.finish, Result.calls, hrest]⟩
    | thrown e cs =>
      rw [hb] at hrest
      simp only [Result.calls] at hrest
      exact ⟨rest ++ [Call.guard_exit], by simp [CompositeTypeGuard.finish, Result.calls, hrest]⟩

theorem read_to_calls_mono (f : String) (rd : Rd σ ε α) (set : ρ → α → ρ) (r : ρ)
    (m : Machine σ) : ∃ rest, (read_to f rd set r m).calls = m.calls ++ rest := by
  unfold read_to
  split <;> exact ⟨_, rfl⟩

theorem nullable_calls_mono (D : Decoder σ ε) (f : String) (rd : Rd σ ε α) (set : ρ → α → ρ)
    (r : ρ) (m : Machine σ) : ∃ rest, (nullable D f rd set r m).calls = m.calls ++ rest := by
  unfold nullable
  split
  · exact ⟨[], by simp [Result.calls]⟩
  · split
    · exact read_to_calls_mono f rd set r m
    · exact ⟨_, rfl⟩

theorem runSteps_calls_mono (steps : List (Step σ ε ρ))
    (hs : ∀ s ∈ steps, ∀ r m, ∃ rest, (s r m).calls = m.calls ++ rest) (r : ρ) (m : Machine σ) :
    ∃ rest, (runSteps steps r m).calls = m.calls ++ rest := by
  induction steps generalizing r m with
  | nil => exact ⟨[], by simp [runSteps, Result.calls]⟩
  | cons s ss ih =>
    obtain ⟨rest1, h1⟩ := hs s (List.mem_cons_self _ _) r m
    simp only [runSteps]
    cases hsr : s r m with
    | ok r2 m2 =>
      rw [hsr] at h1
      simp only [Result.calls] at h1
      obtain ⟨rest2, h2⟩ := ih (fun s1 hs1 => hs s1 (List.mem_cons_of_mem _ hs1)) r2 m2
      exact ⟨rest1 ++ rest2, by simp [h2, h1]⟩
    | thrown e cs =>
      rw [hsr] at h1
      exact ⟨rest1, h1⟩

theorem read_to_ok_iff (f : String) (rd : Rd σ ε α) (set : ρ → α → ρ) (r r1 : ρ)
    (m m1 : Machine σ) :
    read_to f rd set r m = .ok r1 m1 ↔
      ∃ v c, rd m.decoder = .ok (v, c) ∧ r1 = set r v ∧
        m1 = ⟨c, m.calls ++ [Call.read_to f]⟩ := by
  unfold read_to
  cases h : rd m.decoder with
  | error e => simp
  | ok p =>
    obtain ⟨v, c⟩ := p
    simp only [Result.ok.injEq, Except.ok.injEq, Prod.mk.injEq]
    constructor
    · rintro ⟨h1, h2⟩
      exact ⟨v, c, ⟨rfl, rfl⟩, h1.symm, h2.symm⟩
    · rintro ⟨v1, c1, ⟨hv, hc⟩, h1, h2⟩
      subst hv hc
      exact ⟨h1.symm, h2.symm⟩

theorem nullable_ok_iff (D : Decoder σ ε) (f : String) (rd : Rd σ ε α) (set : ρ → α → ρ)
    (r r1 : ρ) (m m1 : Machine σ) :
    nullable D f rd set r m = .ok r1 m1 ↔
      (D.next_type m.decoder = .ok type_id.NULL_TYPE ∧ r1 = r ∧
        m1 = ⟨D.next m.decoder, m.calls ++ [Call.next]⟩) ∨
      (∃ t v c, D.next_type m.decoder = .ok t ∧ t ≠ type_id.NULL_TYPE ∧
        rd m.decoder = .ok (v, c) ∧ r1 = set r v ∧
        m1 = ⟨c, m.calls ++ [Call.read_to f]⟩) := by
  unfold nullable
  cases h : D.next_type m.decoder with
  | error e => simp
  | ok t =>
    dsimp only
    by_cases ht : t = type_id.NULL_TYPE
    · subst ht
      rw [if_neg (fun hne => hne rfl)]
      constructor
      · intro h0
        cases h0
        exact Or.inl ⟨rfl, rfl, rfl⟩
      · rintro (⟨_, h1, h2⟩ | ⟨t1, v, c, ht1, hne, _⟩)
        · rw [h1, h2]
        · cases ht1
          exact absurd rfl hne
    · rw [if_pos ht, read_to_ok_iff]
      constructor
      · rintro ⟨v, c, h1, h2, h3⟩
        exact Or.inr ⟨t, v, c, rfl, ht, h1, h2, h3⟩
      · rintro (⟨h0, _⟩ | ⟨t1, v, c, _, _, h1, h2, h3⟩)
        · cases h0
          exact absurd rfl ht
        · exact ⟨v, c, h1, h2, h3⟩

theorem read_to_error (f : String) (rd : Rd σ ε α) (set : ρ → α → ρ) (r : ρ) (m : Machine σ)
    (e : ε) (h : rd m.decoder = .error e) :
    read_to f rd set r m = .thrown e (m.calls ++ [Call.read_to f]) := by
  simp [read_to, h]

theorem finish_map {β : Type} (G : CompositeTypeGuard σ ε) (g : ρ → β) (x : Result σ ε ρ) :
    G.finish (x.map g) = (G.finish x).map g := by
  cases x <;> rfl

theorem runSteps_cons_ok_iff (s : Step σ ε ρ) (ss : List (Step σ ε ρ)) (r r1 : ρ)
    (m m1 : Machine σ) :
    runSteps (s :: ss) r m = .ok r1 m1 ↔
      ∃ r2 m2, s r m = .ok r2 m2 ∧ runSteps ss r2 m2 = .ok r1 m1 := by
  constructor
  · exact runSteps_cons_ok s ss r r1 m m1
  · rintro ⟨r2, m2, h1, h2⟩
    simp only [runSteps, h1, h2]

theorem runSteps_nil_ok_iff (r r1 : ρ) (m m1 : Machine σ) :
    runSteps ([] : List (Step σ ε ρ)) r m = .ok r1 m1 ↔ r1 = r ∧ m1 = m := by
  simp only [runSteps, Result.ok.injEq]
  constructor
  · rintro ⟨h1, h2⟩
    exact ⟨h1.symm, h2.symm⟩
  · rintro ⟨h1, h2⟩
    exact ⟨h1.symm, h2.symm⟩

theorem scope_ok_iff (G : CompositeTypeGuard σ ε) (name descriptor : String) (n : Nat)
    (body : Machine σ → Result σ ε ρ) (m0 : Machine σ) (r : ρ) (m : Machine σ) :
    G.scope name descriptor n body m0 = .ok r m ↔
      ∃ c m1, G.ctor name descriptor n m0.decoder = .ok c ∧
        body ⟨c, m0.calls ++ [Call.guard name descriptor n]⟩ = .ok r m1 ∧
        m = ⟨G.dtor m1.decoder, m1.calls ++ [Call.guard_exit]⟩ := by
  constructor
  · exact scope_ok_inv G name descriptor n body m0 r m
  · rintro ⟨c, m1, hg, hb, hm⟩
    rw [scope_ok G name descriptor n body m0 c hg, hb, hm]
    rfl

end GenericLemmas

section Claims

variable {σ ε : Type} {K : Classes} {T : Type}

/-- The decodes of `TransactionState` that return, in terms of the
collaborators alone. -/
theorem state_decode_ok_iff (D : Decoder σ ε) (G : CompositeTypeGuard σ ε)
    (P : Parser σ ε K) (read_data : Rd σ ε (ptr T)) (descriptor : String) (u : Int)
    (m0 : Machine σ) (r : TransactionState K T) (m : Machine σ) :
      TransactionState.decode D G P read_data descriptor u m0 = .ok r m ↔
      ∃ c0 v1 c1 v2 c2 v3 c3 v4 e4 c4 v5 c5,
        G.ctor TransactionState.name descriptor 5 m0.decoder = .ok c0 ∧
        P.AttachmentConstraint c0 = .ok (v1, c1) ∧
        P.string c1 = .ok (v2, c2) ∧
        read_data c2 = .ok (v3, c3) ∧
        ((D.next_type c3 = .ok type_id.NULL_TYPE ∧ c4 = D.next c3 ∧ v4 = u ∧
            e4 = Call.next) ∨
          (∃ t, D.next_type c3 = .ok t ∧ t ≠ type_id.NULL_TYPE ∧
            P.int32_t c3 = .ok (v4, c4) ∧ e4 = Call.read_to "encumbrance")) ∧
        P.Party c4 = .ok (v5, c5) ∧
        r = { constraint := v1, contract := v2, data := v3, encumbrance := v4,
              notary := v5 } ∧
        m = ⟨G.dtor c5, m0.calls ++
          [Call.guard TransactionState.name descriptor 5, Call.read_to "constraint",
            Call.read_to "contract", Call.read_to "data", e4, Call.read_to "notary",
            Call.guard_exit]⟩ := by
  unfold TransactionState.decode TransactionState.fieldSteps
  simp only [scope_ok_iff, runSteps_cons_ok_iff, runSteps_nil_ok_iff, read_to_ok_iff,
    nullable_ok_iff]
  constructor
  · rintro ⟨c0, m9, hg, ⟨r1, m1, ⟨v1, c1, h1, rfl, rfl⟩, r2, m2, ⟨v2, c2, h2, rfl, rfl⟩, r3, m3,
      ⟨v3, c3, h3, rfl, rfl⟩, r4, m4, h4, r5, m5, ⟨v5, c5, h5, rfl, rfl⟩, rfl, rfl⟩, rfl⟩
    rcases h4 with ⟨h4, rfl, rfl⟩ | ⟨t, v4, c4, h4, ht, h4r, rfl, rfl⟩
    · exact ⟨c0, v1, c1, v2, c2, v3, c3, u, Call.next, _, v5, c5, hg, h1, h2, h3,
        Or.inl ⟨h4, rfl, rfl, rfl⟩, h5, rfl, by simp⟩
    · exact ⟨c0, v1, c1, v2, c2, v3, c3, v4, Call.read_to "encumbrance", c4, v5, c5, hg, h1,
        h2, h3, Or.inr ⟨t, h4, ht, h4r, rfl⟩, h5, rfl, by simp⟩
  · rintro ⟨c0, v1, c1, v2, c2, v3, c3, v4, e4, c4, v5, c5, hg, h1, h2, h3, h4, h5, rfl, rfl⟩
    rcases h4 with ⟨h4, rfl, rfl, rfl⟩ | ⟨t, h4, ht, h4r, rfl⟩
    · exact ⟨c0, _, hg, ⟨_, _, ⟨v1, c1, h1, rfl, rfl⟩, _, _, ⟨v2, c2, h2, rfl, rfl⟩, _, _,
        ⟨v3, c3, h3, rfl, rfl⟩, _, _, Or.inl ⟨h4, rfl, rfl⟩, _, _, ⟨v5, c5, h5, rfl, rfl⟩,
        rfl, rfl⟩, by simp⟩
    · exact ⟨c0, _, hg, ⟨_, _, ⟨v1, c1, h1, rfl, rfl⟩, _, _, ⟨v2, c2, h2, rfl, rfl⟩, _, _,
        ⟨v3, c3, h3, rfl, rfl⟩, _, _, Or.inr ⟨t, v4, c4, h4, ht, h4r, rfl, rfl⟩, _, _,
        ⟨v5, c5, h5, rfl, rfl⟩, rfl, rfl⟩, by simp⟩

/-- The decodes of `TraversableTransaction` that return, in terms of the
collaborators alone. -/
theorem tx_decode_ok_iff (D : Decoder σ ε) (G : CompositeTypeGuard σ ε)
    (P : Parser σ ε K)
    (read_outputs : Rd σ ε (List (ptr (TransactionState K K.ContractState))))
    (m0 : Machine σ) (r : TraversableTransaction K) (m : Machine σ) :
      TraversableTransaction.decode D G P read_outputs m0 = .ok r m ↔
      ∃ c0 v1 c1 v2 c2 v3 c3 v4 c4 v5 e5 c5 v6 c6 v7 c7 v8 e8 c8,
        G.ctor TraversableTransaction.name TraversableTransaction.descriptor 8 m0.decoder =
          .ok c0 ∧
        P.list_SecureHash c0 = .ok (v1, c1) ∧
        P.list_Command c1 = .ok (v2, c2) ∧
        P.list_ComponentGroup c2 = .ok (v3, c3) ∧
        P.list_StateRef c3 = .ok (v4, c4) ∧
        ((D.next_type c4 = .ok type_id.NULL_TYPE ∧ c5 = D.next c4 ∧ v5 = none ∧
            e5 = Call.next) ∨
          (∃ t, D.next_type c4 = .ok t ∧ t ≠ type_id.NULL_TYPE ∧
            P.Party c4 = .ok (v5, c5) ∧ e5 = Call.read_to "notary")) ∧
        read_outputs c5 = .ok (v6, c6) ∧
        P.list_StateRef c6 = .ok (v7, c7) ∧
        ((D.next_type c7 = .ok type_id.NULL_TYPE ∧ c8 = D.next c7 ∧ v8 = none ∧
            e8 = Call.next) ∨
          (∃ t, D.next_type c7 = .ok t ∧ t ≠ type_id.NULL_TYPE ∧
            P.TimeWindow c7 = .ok (v8, c8) ∧ e8 = Call.read_to "time_window")) ∧
        r = { attachments := v1, commands := v2, component_groups := v3, inputs := v4,
              notary := v5, outputs := v6, references := v7, time_window := v8 } ∧
        m = ⟨G.dtor c8, m0.calls ++
          [Call.guard TraversableTransaction.name TraversableTransaction.descriptor 8,
            Call.read_to "attachments", Call.read_to "commands",
            Call.read_to "component_groups", Call.read_to "inputs", e5,
            Call.read_to "outputs", Call.read_to "references", e8, Call.guard_exit]⟩ := by
  unfold TraversableTransaction.decode TraversableTransaction.fieldSteps
  simp only [scope_ok_iff, runSteps_cons_ok_iff, runSteps_nil_ok_iff, read_to_ok_iff,
    nullable_ok_iff]
  constructor
  · rintro ⟨c0, m9, hg, ⟨r1, m1, ⟨v1, c1, h1, rfl, rfl⟩, r2, m2, ⟨v2, c2, h2, rfl, rfl⟩, r3, m3,
      ⟨v3, c3, h3, rfl, rfl⟩, r4, m4, ⟨v4, c4, h4, rfl, rfl⟩, r5, m5, h5, r6, m6,
      ⟨v6, c6, h6, rfl, rfl⟩, r7, m7, ⟨v7, c7, h7, rfl, rfl⟩, r8, m8, h8, rfl, rfl⟩, rfl⟩
    rcases h5 with ⟨h5, rfl, rfl⟩ | ⟨t5, v5, c5, h5, ht5, h5r, rfl, rfl⟩ <;>
      rcases h8 with ⟨h8, rfl, rfl⟩ | ⟨t8, v8, c8, h8, ht8, h8r, rfl, rfl⟩
    · exact ⟨c0, v1, c1, v2, c2, v3, c3, v4, c4, none, Call.next, _, v6, c6, v7, c7, none,
        Call.next, _, hg, h1, h2, h3, h4, Or.inl ⟨h5, rfl, rfl, rfl⟩, h6, h7,
        Or.inl ⟨h8, rfl, rfl, rfl⟩, rfl, by simp⟩
    · exact ⟨c0, v1, c1, v2, c2, v3, c3, v4, c4, none, Call.next, _, v6, c6, v7, c7, v8,
        Call.read_to "time_window", c8, hg, h1, h2, h3, h4, Or.inl ⟨h5, rfl, rfl, rfl⟩, h6, h7,
        Or.inr ⟨t8, h8, ht8, h8r, rfl⟩, rfl, by simp⟩
    · exact ⟨c0, v1, c1, v2, c2, v3, c3, v4, c4, v5, Call.read_to "notary", c5, v6, c6, v7, c7,
        none, Call.next, _, hg, h1, h2, h3, h4, Or.inr ⟨t5, h5, ht5, h5r, rfl⟩, h6, h7,
        Or.inl ⟨h8, rfl, rfl, rfl⟩, rfl, by simp⟩
    · exact ⟨c0, v1, c1, v2, c2, v3, c3, v4, c4, v5, Call.read_to "notary", c5, v6, c6, v7, c7,
        v8, Call.read_to "time_window", c8, hg, h1, h2, h3, h4,
        Or.inr ⟨t5, h5, ht5, h5r, rfl⟩, h6, h7, Or.inr ⟨t8, h8, ht8, h8r, rfl⟩, rfl, by simp⟩
  · rintro ⟨c0, v1, c1, v2, c2, v3, c3, v4, c4, v5, e5, c5, v6, c6, v7, c7, v8, e8, c8, hg, h1,
      h2, h3, h4, h5, h6, h7, h8, rfl, rfl⟩
    refine ⟨c0, _, hg, ⟨_, _, ⟨v1, c1, h1, rfl, rfl⟩, _, _, ⟨v2, c2, h2, rfl, rfl⟩, _, _,
      ⟨v3, c3, h3, rfl, rfl⟩, _, _, ⟨v4, c4, h4, rfl, rfl⟩,
      ⟨{ attachments := v1, commands := v2, component_groups := v3, inputs := v4, notary := v5,
          outputs := [], references := [], time_window := none },
        ⟨c5, m0.calls ++
          [Call.guard TraversableTransaction.name TraversableTransaction.descriptor 8,
            Call.read_to "attachments", Call.read_to "commands",
            Call.read_to "component_groups", Call.read_to "inputs", e5]⟩, ?_, _, _,
        ⟨v6, c6, h6, rfl, rfl⟩, _, _, ⟨v7, c7, h7, rfl, rfl⟩,
        ⟨{ attachments := v1, commands := v2, component_groups := v3, inputs := v4,
            notary := v5, outputs := v6, references := v7, time_window := v8 },
          ⟨c8, m0.calls ++
            [Call.guard TraversableTransaction.name TraversableTransaction.descriptor 8,
              Call.read_to "attachments", Call.read_to "commands",
              Call.read_to "component_groups", Call.read_to "inputs", e5,
              Call.read_to "outputs", Call.read_to "references", e8]⟩, ?_, rfl, rfl⟩⟩⟩, ?_⟩
    · rcases h5 with ⟨h5, rfl, rfl, rfl⟩ | ⟨t, h5, ht, h5r, rfl⟩
      · exact Or.inl ⟨h5, by simp [TraversableTransaction.default], by simp⟩
      · exact Or.inr ⟨t, v5, c5, h5, ht, h5r, by simp [TraversableTransaction.default], by simp⟩
    · rcases h8 with ⟨h8, rfl, rfl, rfl⟩ | ⟨t, h8, ht, h8r, rfl⟩
      · exact Or.inl ⟨h8, rfl, by simp⟩
      · exact Or.inr ⟨t, v8, c8, h8, ht, h8r, rfl, by simp⟩
    · simp

/-- C3: exact characterisation of the decodes that return.  A decode returns
iff the guard constructor accepts the initial cursor and then every declared
field, in declaration order (constraint, contract, data, encumbrance, notary
for TransactionState; attachments, commands, component_groups, inputs, notary,
outputs, references, time_window for TraversableTransaction), is handled by
exactly one cursor-moving call applied to the cursor the previous call left:
the read_to of that field, or, for a nullable field and only when the tag there
is NULL, decoder.next().  The record holds exactly the values so read, the
recorded calls are exactly these, and the guard scope ends on the last cursor. -/
theorem fields_once_in_order (D : Decoder σ ε) (G : CompositeTypeGuard σ ε)
    (P : Parser σ ε K) (read_data : Rd σ ε (ptr T))
    (read_outputs : Rd σ ε (List (ptr (TransactionState K K.ContractState))))
    (descriptor : String) (u : Int) :
    (∀ (m0 : Machine σ) (r : TransactionState K T) (m : Machine σ),
      TransactionState.decode D G P read_data descriptor u m0 = .ok r m ↔
      ∃ c0 v1 c1 v2 c2 v3 c3 v4 e4 c4 v5 c5,
        G.ctor TransactionState.name descriptor 5 m0.decoder = .ok c0 ∧
        P.AttachmentConstraint c0 = .ok (v1, c1) ∧
        P.string c1 = .ok (v2, c2) ∧
        read_data c2 = .ok (v3, c3) ∧
        ((D.next_type c3 = .ok type_id.NULL_TYPE ∧ c4 = D.next c3 ∧ v4 = u ∧
            e4 = Call.next) ∨
          (∃ t, D.next_type c3 = .ok t ∧ t ≠ type_id.NULL_TYPE ∧
            P.int32_t c3 = .ok (v4, c4) ∧ e4 = Call.read_to "encumbrance")) ∧
        P.Party c4 = .ok (v5, c5) ∧
        r = { constraint := v1, contract := v2, data := v3, encumbrance := v4,
              notary := v5 } ∧
        m = ⟨G.dtor c5, m0.calls ++
          [Call.guard TransactionState.name descriptor 5, Call.read_to "constraint",
            Call.read_to "contract", Call.read_to "data", e4, Call.read_to "notary",
            Call.guard_exit]⟩) ∧
    (∀ (m0 : Machine σ) (r : TraversableTransaction K) (m : Machine σ),
      TraversableTransaction.decode D G P read_outputs m0 = .ok r m ↔
      ∃ c0 v1 c1 v2 c2 v3 c3 v4 c4 v5 e5 c5 v6 c6 v7 c7 v8 e8 c8,
        G.ctor TraversableTransaction.name TraversableTransaction.descriptor 8 m0.decoder =
          .ok c0 ∧
        P.list_SecureHash c0 = .ok (v1, c1) ∧
        P.list_Command c1 = .ok (v2, c2) ∧
        P.list_ComponentGroup c2 = .ok (v3, c3) ∧
        P.list_StateRef c3 = .ok (v4, c4) ∧
        ((D.next_type c4 = .ok type_id.NULL_TYPE ∧ c5 = D.next c4 ∧ v5 = none ∧
            e5 = Call.next) ∨
          (∃ t, D.next_type c4 = .ok t ∧ t ≠ type_id.NULL_TYPE ∧
            P.Party c4 = .ok (v5, c5) ∧ e5 = Call.read_to "notary")) ∧
        read_outputs c5 = .ok (v6, c6) ∧
        P.list_StateRef c6 = .ok (v7, c7) ∧
        ((D.next_type c7 = .ok type_id.NULL_TYPE ∧ c8 = D.next c7 ∧ v8 = none ∧
            e8 = Call.next) ∨
          (∃ t, D.next_type c7 = .ok t ∧ t ≠ type_id.NULL_TYPE ∧
            P.TimeWindow c7 = .ok (v8, c8) ∧ e8 = Call.read_to "time_window")) ∧
        r = { attachments := v1, commands := v2, component_groups := v3, inputs := v4,
              notary := v5, outputs := v6, references := v7, time_window := v8 } ∧
        m = ⟨G.dtor c8, m0.calls ++
          [Call.guard TraversableTransaction.name TraversableTransaction.descriptor 8,
            Call.read_to "attachments", Call.read_to "commands",
            Call.read_to "component_groups", Call.read_to "inputs", e5,
            Call.read_to "outputs", Call.read_to "references", e8, Call.guard_exit]⟩) := by
  constructor
  · intro m0 r m
    exact state_decode_ok_iff D G P read_data descriptor u m0 r m
  · intro m0 r m
    exact tx_decode_ok_iff D G P read_outputs m0 r m

/-- C4: in both generated decoders an exception of the guard constructor or of
a field statement is the outcome of the whole decode, unchanged: after a guard
failure nothing else is called; after a failure of field statement k the calls
recorded are those up to that statement (its read_to at most) and the end of
the guard scope, so no later field is read; a thrown outcome carries no record,
and a returned record means the guard and every field statement succeeded. -/
theorem errors_propagate (D : Decoder σ ε) (G : CompositeTypeGuard σ ε)
    (P : Parser σ ε K) (read_data : Rd σ ε (ptr T))
    (read_outputs : Rd σ ε (List (ptr (TransactionState K K.ContractState))))
    (descriptor : String) (u : Int) :
    ((∀ (m0 : Machine σ) (e : ε),
        G.ctor TransactionState.name descriptor 5 m0.decoder = .error e →
        TransactionState.decode D G P read_data descriptor u m0 =
          .thrown e (m0.calls ++ [Call.guard TransactionState.name descriptor 5])) ∧
      (∀ (m0 : Machine σ) (c : σ) (k : Nat) (s : Step σ ε (TransactionState K T))
        (r : TransactionState K T) (m1 : Machine σ) (e : ε) (cs : List Call),
        G.ctor TransactionState.name descriptor 5 m0.decoder = .ok c →
        runSteps ((TransactionState.fieldSteps D P read_data).take k) (TransactionState.shell u)
            ⟨c, m0.calls ++ [Call.guard TransactionState.name descriptor 5]⟩ = .ok r m1 →
        (TransactionState.fieldSteps D P read_data)[k]? = some s →
        s r m1 = .thrown e cs →
        TransactionState.decode D G P read_data descriptor u m0 =
            .thrown e (cs ++ [Call.guard_exit]) ∧
          (cs = m1.calls ∨
            cs = m1.calls ++ [Call.read_to (TransactionState.fields.getD k "")])) ∧
      (∀ (m0 : Machine σ) (r : TransactionState K T) (m : Machine σ),
        TransactionState.decode D G P read_data descriptor u m0 = .ok r m →
        ∃ c m1, G.ctor TransactionState.name descriptor 5 m0.decoder = .ok c ∧
          runSteps (TransactionState.fieldSteps D P read_data) (TransactionState.shell u)
            ⟨c, m0.calls ++ [Call.guard TransactionState.name descriptor 5]⟩ = .ok r m1)) ∧
    ((∀ (m0 : Machine σ) (e : ε),
        G.ctor TraversableTransaction.name TraversableTransaction.descriptor 8 m0.decoder =
          .error e →
        TraversableTransaction.decode D G P read_outputs m0 =
          .thrown e (m0.calls ++
            [Call.guard TraversableTransaction.name TraversableTransaction.descriptor 8])) ∧
      (∀ (m0 : Machine σ) (c : σ) (k : Nat) (s : Step σ ε (TraversableTransaction K))
        (r : TraversableTransaction K) (m1 : Machine σ) (e : ε) (cs : List Call),
        G.ctor TraversableTransaction.name TraversableTransaction.descriptor 8 m0.decoder =
          .ok c →
        runSteps ((TraversableTransaction.fieldSteps D P read_outputs).take k)
            TraversableTransaction.default
            ⟨c, m0.calls ++
              [Call.guard TraversableTransaction.name TraversableTransaction.descriptor 8]⟩ =
          .ok r m1 →
        (TraversableTransaction.fieldSteps D P read_outputs)[k]? = some s →
        s r m1 = .thrown e cs →
        TraversableTransaction.decode D G P read_outputs m0 =
            .thrown e (cs ++ [Call.guard_exit]) ∧
          (cs = m1.calls ∨
            cs = m1.calls ++ [Call.read_to (TraversableTransaction.fields.getD k "")])) ∧
      (∀ (m0 : Machine σ) (r : TraversableTransaction K) (m : Machine σ),
        TraversableTransaction.decode D G P read_outputs m0 = .ok r m →
        ∃ c m1,
          G.ctor TraversableTransaction.name TraversableTransaction.descriptor 8 m0.decoder =
            .ok c ∧
          runSteps (TraversableTransaction.fieldSteps D P read_outputs)
            TraversableTransaction.default
            ⟨c, m0.calls ++
              [Call.guard TraversableTransaction.name TraversableTransaction.descriptor 8]⟩ =
            .ok r m1)) := by
  refine ⟨⟨?_, ?_, ?_⟩, ⟨?_, ?_, ?_⟩⟩
  · intro m0 e hg
    exact scope_guard_thrown G _ _ _ _ m0 e hg
  · intro m0 c k s r m1 e cs hg hreach hk hs
    refine ⟨scope_step_thrown G _ _ _ _ _ m0 c k s r m1 e cs hg hreach hk hs, ?_⟩
    have hlt : k < 5 := by
      rcases Nat.lt_or_ge k 5 with h | h
      · exact h
      · rw [List.getElem?_eq_none (by simpa [TransactionState.fieldSteps] using h)] at hk
        cases hk
    interval_cases k <;>
      simp only [TransactionState.fieldSteps, List.getElem?_cons_zero, List.getElem?_cons_succ,
        Option.some.injEq] at hk <;> subst hk
    · exact Or.inr (read_to_thrown_calls hs)
    · exact Or.inr (read_to_thrown_calls hs)
    · exact Or.inr (read_to_thrown_calls hs)
    · exact nullable_thrown_calls hs
    · exact Or.inr (read_to_thrown_calls hs)
  · intro m0 r m h
    obtain ⟨c, m1, hg, hrun, _⟩ := scope_ok_inv G _ _ _ _ m0 r m h
    exact ⟨c, m1, hg, hrun⟩
  · intro m0 e hg
    exact scope_guard_thrown G _ _ _ _ m0 e hg
  · intro m0 c k s r m1 e cs hg hreach hk hs
    refine ⟨scope_step_thrown G _ _ _ _ _ m0 c k s r m1 e cs hg hreach hk hs, ?_⟩
    have hlt : k < 8 := by
      rcases Nat.lt_or_ge k 8 with h | h
      · exact h
      · rw [List.getElem?_eq_none (by simpa [TraversableTransaction.fieldSteps] using h)] at hk
        cases hk
    interval_cases k <;>
      simp only [TraversableTransaction.fieldSteps, List.getElem?_cons_zero,
        List.getElem?_cons_succ, Option.some.injEq] at hk <;> subst hk
    · exact Or.inr (read_to_thrown_calls hs)
    · exact Or.inr (read_to_thrown_calls hs)
    · exact Or.inr (read_to_thrown_calls hs)
    · exact Or.inr (read_to_thrown_calls hs)
    · exact nullable_thrown_calls hs
    · exact Or.inr (read_to_thrown_calls hs)
    · exact Or.inr (read_to_thrown_calls hs)
    · exact nullable_thrown_calls hs
  · intro m0 r m h
    obtain ⟨c, m1, hg, hrun, _⟩ := scope_ok_inv G _ _ _ _ m0 r m h
    exact ⟨c, m1, hg, hrun⟩

theorem state_fieldSteps_calls_mono (D : Decoder σ ε) (P : Parser σ ε K)
    (read_data : Rd σ ε (ptr T)) (r : TransactionState K T) (m : Machine σ) :
    ∃ rest, (runSteps (TransactionState.fieldSteps D P read_data) r m).calls =
      m.calls ++ rest := by
  apply runSteps_calls_mono
  intro s hs
  simp only [TransactionState.fieldSteps, List.mem_cons, List.mem_singleton, List.not_mem_nil,
    or_false] at hs
  rcases hs with rfl | rfl | rfl | rfl | rfl
  · exact read_to_calls_mono _ _ _
  · exact read_to_calls_mono _ _ _
  · exact read_to_calls_mono _ _ _
  · exact nullable_calls_mono _ _ _ _
  · exact read_to_calls_mono _ _ _

/-- C9: in both generated decoders the guard constructor is the first operation
on the cursor and receives the triple of the type, (TransactionState name,
"net.corda:EXC6szFsBMi53/1So8maDg==", 5) for TransactionState of ContractState
and (TraversableTransaction name, "net.corda:7uh5OkEW1sLz08a+OOUFJg==", 8) for
TraversableTransaction: it is applied to the untouched initial cursor; when it
throws, the decode throws the same error and no reader has been called; when it
returns a cursor, the first field is read from exactly that cursor; a decode
that returns was accepted by it, and between the guard call and the end of its
scope there is exactly one call per declared field, so that the count passed
equals the number of declared fields and of field statements. -/
theorem guard_first_with_own_triple (D : Decoder σ ε) (G : CompositeTypeGuard σ ε)
    (P : Parser σ ε K) (read_data : Rd σ ε (ptr K.ContractState))
    (read_outputs : Rd σ ε (List (ptr (TransactionState K K.ContractState)))) (u : Int) :
    ((∀ (m0 : Machine σ) (e : ε),
        G.ctor "net.corda.core.contracts.TransactionState<net.corda.core.contracts.ContractState>"
          "net.corda:EXC6szFsBMi53/1So8maDg==" 5 m0.decoder = .error e →
        TransactionState.decode D G P read_data TransactionState.descriptor_ContractState u m0 =
          .thrown e (m0.calls ++
            [Call.guard "net.corda.core.contracts.TransactionState<net.corda.core.contracts.ContractState>"
              "net.corda:EXC6szFsBMi53/1So8maDg==" 5])) ∧
      (∀ (m0 : Machine σ) (c : σ) (e : ε),
        G.ctor "net.corda.core.contracts.TransactionState<net.corda.core.contracts.ContractState>"
          "net.corda:EXC6szFsBMi53/1So8maDg==" 5 m0.decoder = .ok c →
        P.AttachmentConstraint c = .error e →
        TransactionState.decode D G P read_data TransactionState.descriptor_ContractState u m0 =
          .thrown e (m0.calls ++
            [Call.guard "net.corda.core.contracts.TransactionState<net.corda.core.contracts.ContractState>"
              "net.corda:EXC6szFsBMi53/1So8maDg==" 5,
              Call.read_to "constraint", Call.guard_exit])) ∧
      (∀ (m0 : Machine σ) (r : TransactionState K K.ContractState) (m : Machine σ),
        TransactionState.decode D G P read_data TransactionState.descriptor_ContractState u m0 =
          .ok r m →
        ∃ c c1 es,
          G.ctor "net.corda.core.contracts.TransactionState<net.corda.core.contracts.ContractState>"
            "net.corda:EXC6szFsBMi53/1So8maDg==" 5 m0.decoder = .ok c ∧
          P.AttachmentConstraint c = .ok (r.constraint, c1) ∧
          m.calls = m0.calls ++
            (Call.guard "net.corda.core.contracts.TransactionState<net.corda.core.contracts.ContractState>"
              "net.corda:EXC6szFsBMi53/1So8maDg==" 5 :: (es ++ [Call.guard_exit])) ∧
          List.Forall₂ (fun f e => e = Call.read_to f ∨ e = Call.next)
            TransactionState.fields es) ∧
      TransactionState.descriptor TypeArg.ContractState =
        some "net.corda:EXC6szFsBMi53/1So8maDg==" ∧
      TransactionState.fields.length = 5 ∧
      (TransactionState.fieldSteps D P read_data).length = 5) ∧
    ((∀ (m0 : Machine σ) (e : ε),
        G.ctor "class net.corda.core.transactions.TraversableTransaction"
          "net.corda:7uh5OkEW1sLz08a+OOUFJg==" 8 m0.decoder = .error e →
        TraversableTransaction.decode D G P read_outputs m0 =
          .thrown e (m0.calls ++
            [Call.guard "class net.corda.core.transactions.TraversableTransaction"
              "net.corda:7uh5OkEW1sLz08a+OOUFJg==" 8])) ∧
      (∀ (m0 : Machine σ) (c : σ) (e : ε),
        G.ctor "class net.corda.core.transactions.TraversableTransaction"
          "net.corda:7uh5OkEW1sLz08a+OOUFJg==" 8 m0.decoder = .ok c →
        P.list_SecureHash c = .error e →
        TraversableTransaction.decode D G P read_outputs m0 =
          .thrown e (m0.calls ++
            [Call.guard "class net.corda.core.transactions.TraversableTransaction"
              "net.corda:7uh5OkEW1sLz08a+OOUFJg==" 8,
              Call.read_to "attachments", Call.guard_exit])) ∧
      (∀ (m0 : Machine σ) (r : TraversableTransaction K) (m : Machine σ),
        TraversableTransaction.decode D G P read_outputs m0 = .ok r m →
        ∃ c c1 es,
          G.ctor "class net.corda.core.transactions.TraversableTransaction"
            "net.corda:7uh5OkEW1sLz08a+OOUFJg==" 8 m0.decoder = .ok c ∧
          P.list_SecureHash c = .ok (r.attachments, c1) ∧
          m.calls = m0.calls ++
            (Call.guard "class net.corda.core.transactions.TraversableTransaction"
              "net.corda:7uh5OkEW1sLz08a+OOUFJg==" 8 :: (es ++ [Call.guard_exit])) ∧
          List.Forall₂ (fun f e => e = Call.read_to f ∨ e = Call.next)
            TraversableTransaction.fields es) ∧
      TraversableTransaction.descriptor = "net.corda:7uh5OkEW1sLz08a+OOUFJg==" ∧
      TraversableTransaction.fields.length = 8 ∧
      (TraversableTransaction.fieldSteps D P read_outputs).length = 8) := by
  refine ⟨⟨?_, ?_, ?_, rfl, rfl, rfl⟩, ⟨?_, ?_, ?_, rfl, rfl, rfl⟩⟩
  · intro m0 e hg
    exact scope_guard_thrown G _ _ _ _ m0 e hg
  · intro m0 c e hg h1
    have h := scope_step_thrown G TransactionState.name
      TransactionState.descriptor_ContractState 5
      (TransactionState.fieldSteps D P read_data) (TransactionState.shell u) m0 c 0
      (read_to "constraint" P.AttachmentConstraint (fun r v => { r with constraint := v }))
      (TransactionState.shell u)
      ⟨c, m0.calls ++
        [Call.guard TransactionState.name TransactionState.descriptor_ContractState 5]⟩
      e _ hg rfl rfl (read_to_error "constraint" P.AttachmentConstraint _ _ _ e h1)
    simpa [TransactionState.decode] using h
  · intro m0 r m h
    obtain ⟨c0, v1, c1, v2, c2, v3, c3, v4, e4, c4, v5, c5, hg, h1, h2, h3, h4, h5, hr, hm⟩ :=
      (state_decode_ok_iff D G P read_data _ u m0 r m).mp h
    subst hr hm
    refine ⟨c0, c1, [Call.read_to "constraint", Call.read_to "contract", Call.read_to "data",
      e4, Call.read_to "notary"], hg, h1, rfl, ?_⟩
    have he4 : e4 = Call.read_to "encumbrance" ∨ e4 = Call.next := by
      rcases h4 with ⟨_, _, _, h⟩ | ⟨_, _, _, _, h⟩
      · exact Or.inr h
      · exact Or.inl h
    exact .cons (Or.inl rfl) (.cons (Or.inl rfl) (.cons (Or.inl rfl)
      (.cons he4 (.cons (Or.inl rfl) .nil))))
  · intro m0 e hg
    exact scope_guard_thrown G _ _ _ _ m0 e hg
  · intro m0 c e hg h1
    have h := scope_step_thrown G TraversableTransaction.name
      TraversableTransaction.descriptor 8
      (TraversableTransaction.fieldSteps D P read_outputs) TraversableTransaction.default m0 c 0
      (read_to "attachments" P.list_SecureHash (fun r v => { r with attachments := v }))
      TraversableTransaction.default
      ⟨c, m0.calls ++
        [Call.guard TraversableTransaction.name TraversableTransaction.descriptor 8]⟩
      e _ hg rfl rfl (read_to_error "attachments" P.list_SecureHash _ _ _ e h1)
    simpa [TraversableTransaction.decode] using h
  · intro m0 r m h
    obtain ⟨c0, v1, c1, v2, c2, v3, c3, v4, c4, v5, e5, c5, v6, c6, v7, c7, v8, e8, c8, hg, h1,
      h2, h3, h4, h5, h6, h7, h8, hr, hm⟩ := (tx_decode_ok_iff D G P read_outputs m0 r m).mp h
    subst hr hm
    refine ⟨c0, c1, [Call.read_to "attachments", Call.read_to "commands",
      Call.read_to "component_groups", Call.read_to "inputs", e5, Call.read_to "outputs",
      Call.read_to "references", e8], hg, h1, rfl, ?_⟩
    have he5 : e5 = Call.read_to "notary" ∨ e5 = Call.next := by
      rcases h5 with ⟨_, _, _, h⟩ | ⟨_, _, _, _, h⟩
      · exact Or.inr h
      · exact Or.inl h
    have he8 : e8 = Call.read_to "time_window" ∨ e8 = Call.next := by
      rcases h8 with ⟨_, _, _, h⟩ | ⟨_, _, _, _, h⟩
      · exact Or.inr h
      · exact Or.inl h
    exact .cons (Or.inl rfl) (.cons (Or.inl rfl) (.cons (Or.inl rfl) (.cons (Or.inl rfl)
      (.cons he5 (.cons (Or.inl rfl) (.cons (Or.inl rfl) (.cons he8 .nil)))))))

/-- C10: for every template argument T, every reader of the data field and
every value of descriptor(), the TransactionState decoder validates the
envelope with the same literal name and the same count 5: a guard failure on
that name and count is the outcome of the decode, and a decode that returns was
accepted by the guard on that name and count.  The template argument enters
through the data reader alone: it is consulted once, on the cursor left by the
constraint and contract readers, its value becomes the data field, and passing
that value through any function changes nothing else in the outcome.
descriptor() has a value for the argument ContractState only. -/
theorem template_argument_independence (D : Decoder σ ε) (G : CompositeTypeGuard σ ε)
    (P : Parser σ ε K) :
    (∀ (T : Type) (read_data : Rd σ ε (ptr T)) (descriptor : String) (u : Int)
        (m0 : Machine σ) (e : ε),
      G.ctor "net.corda.core.contracts.TransactionState<net.corda.core.contracts.ContractState>"
        descriptor 5 m0.decoder = .error e →
      TransactionState.decode D G P read_data descriptor u m0 =
        .thrown e (m0.calls ++
          [Call.guard "net.corda.core.contracts.TransactionState<net.corda.core.contracts.ContractState>"
            descriptor 5])) ∧
    (∀ (T : Type) (read_data : Rd σ ε (ptr T)) (descriptor : String) (u : Int)
        (m0 : Machine σ) (r : TransactionState K T) (m : Machine σ),
      TransactionState.decode D G P read_data descriptor u m0 = .ok r m →
      ∃ c0 v1 c1 v2 c2 c3,
        G.ctor "net.corda.core.contracts.TransactionState<net.corda.core.contracts.ContractState>"
          descriptor 5 m0.decoder = .ok c0 ∧
        P.AttachmentConstraint c0 = .ok (v1, c1) ∧
        P.string c1 = .ok (v2, c2) ∧
        read_data c2 = .ok (r.data, c3)) ∧
    (∀ (T T1 : Type) (f : ptr T → ptr T1) (read_data : Rd σ ε (ptr T)) (descriptor : String)
        (u : Int) (m0 : Machine σ),
      TransactionState.decode D G P (Rd.mapValue f read_data) descriptor u m0 =
        (TransactionState.decode D G P read_data descriptor u m0).map
          (TransactionState.mapData f)) ∧
    (∀ t : TypeArg, (TransactionState.descriptor t).isSome ↔ t = TypeArg.ContractState) := by
  refine ⟨?_, ?_, ?_, ?_⟩
  · intro T read_data descriptor u m0 e hg
    exact scope_guard_thrown G _ _ _ _ m0 e hg
  · intro T read_data descriptor u m0 r m h
    obtain ⟨c0, v1, c1, v2, c2, v3, c3, v4, e4, c4, v5, c5, hg, h1, h2, h3, h4, h5, hr, hm⟩ :=
      (state_decode_ok_iff D G P read_data descriptor u m0 r m).mp h
    subst hr
    exact ⟨c0, v1, c1, v2, c2, c3, hg, h1, h2, h3⟩
  · intro T T1 f read_data descriptor u m0
    unfold TransactionState.decode CompositeTypeGuard.scope
    cases hg : G.ctor TransactionState.name descriptor 5 m0.decoder with
    | error e => rfl
    | ok c =>
      simp only [← finish_map]
      congr 1
      simp only [TransactionState.fieldSteps, runSteps, read_to, nullable, Rd.mapValue]
      cases h1 : P.AttachmentConstraint c with
      | error e => rfl
      | ok p1 =>
        obtain ⟨v1, c1⟩ := p1
        simp only []
        cases h2 : P.string c1 with
        | error e => rfl
        | ok p2 =>
          obtain ⟨v2, c2⟩ := p2
          simp only []
          cases h3 : read_data c2 with
          | error e => rfl
          | ok p3 =>
            obtain ⟨v3, c3⟩ := p3
            simp only []
            cases h4 : D.next_type c3 with
            | error e => rfl
            | ok t =>
              simp only []
              by_cases ht : t = type_id.NULL_TYPE
              · simp only [ht, ne_eq, not_true_eq_false, if_false]
                cases h5 : P.Party (D.next c3) with
                | error e => rfl
                | ok p5 => rfl
              · simp only [ht, ne_eq, not_false_eq_true, if_true]
                cases h6 : P.int32_t c3 with
                | error e => rfl
                | ok p6 =>
                  obtain ⟨v6, c6⟩ := p6
                  simp only []
                  cases h5 : P.Party c6 with
                  | error e => rfl
                  | ok p5 => rfl
  · intro t
    cases t <;> simp [TransactionState.descriptor]

end Claims

/-! ## Part 4: properties of the generated code against the protocol of the specification -/

section SpecLemmas

variable {K : Classes} {α ρ : Type}

theorem int32_t_local : Local FieldReader.int32_t := by
  intro v rest outer
  cases v <;> rfl

theorem string_local : Local FieldReader.string := by
  intro v rest outer
  cases v <;> rfl

theorem record_local (f : Value → Except DecodeError α) : Local (FieldReader.record f) := by
  intro v rest outer
  simp only [FieldReader.record, valueOf]
  cases f v <;> rfl

theorem owned_local (dec : Rd StreamCursor DecodeError α) (h : Local dec) :
    Local (FieldReader.owned dec) := by
  intro v rest outer
  simp only [FieldReader.owned, valueOf, StreamCursor.peek_tag]
  by_cases ht : v.tag = type_id.NULL_TYPE
  · simp [ht]
  · simp only [ht, if_false]
    rw [h v rest outer, h v [] []]
    cases valueOf dec v <;> rfl

theorem elements_local (elem : Rd StreamCursor DecodeError α) (h : Local elem)
    (xs tail : List Value) (outer : StreamCursor) :
    FieldReader.elements elem xs.length ((xs ++ tail) :: outer) =
      match decodeAll elem xs with
      | .ok as => .ok (as, tail :: outer)
      | .error e => .error e := by
  induction xs with
  | nil => rfl
  | cons x xs ih =>
    simp only [List.length_cons, FieldReader.elements, List.cons_append, decodeAll]
    rw [h x (xs ++ tail) outer]
    cases valueOf elem x with
    | error e => rfl
    | ok a =>
      simp only [ih]
      cases decodeAll elem xs <;> rfl

theorem collection_list (elem : Rd StreamCursor DecodeError α) (h : Local elem)
    (xs rest : List Value) (outer : StreamCursor) :
    FieldReader.collection elem ((Value.list xs :: rest) :: outer) =
      match decodeAll elem xs with
      | .ok as => .ok (as, rest :: outer)
      | .error e => .error e := by
  have h1 := elements_local elem h xs [] (rest :: outer)
  rw [List.append_nil] at h1
  simp only [FieldReader.collection, h1]
  cases decodeAll elem xs <;> rfl

theorem collection_local (elem : Rd StreamCursor DecodeError α) (h : Local elem) :
    Local (FieldReader.collection elem) := by
  intro v rest outer
  cases v with
  | list xs =>
    simp only [valueOf, collection_list elem h]
    cases decodeAll elem xs <;> rfl
  | null => rfl
  | int n => rfl
  | str s => rfl
  | composite n fp fs => rfl

theorem read_to_stepLocal (f : String) (rd : Rd StreamCursor DecodeError α) (set : ρ → α → ρ)
    (h : Local rd) : StepLocal (read_to f rd set) := by
  intro r v rest outer calls
  simp only [read_to]
  rw [h v rest outer, h v [] []]
  cases valueOf rd v <;> rfl

theorem nullable_stepLocal (f : String) (rd : Rd StreamCursor DecodeError α) (set : ρ → α → ρ)
    (h : Local rd) : StepLocal (nullable specDecoder f rd set) := by
  intro r v rest outer calls
  simp only [nullable, specDecoder, StreamCursor.peek_tag, StreamCursor.advance_null]
  by_cases ht : v.tag = type_id.NULL_TYPE
  · simp [ht]
  · simp only [ne_eq, ht, not_false_eq_true, if_true]
    exact read_to_stepLocal f rd set h r v rest outer calls

/-- Statements that each consume one value, run on a level holding one value
per statement followed by `tail`, behave as on the values alone and leave
`tail` unread. -/
theorem runSteps_frame (steps : List (Step StreamCursor DecodeError ρ))
    (hs : ∀ s ∈ steps, StepLocal s) (vs tail : List Value) (outer : StreamCursor) (r : ρ)
    (calls : List Call) (hlen : vs.length = steps.length) :
    runSteps steps r ⟨(vs ++ tail) :: outer, calls⟩ =
      match runSteps steps r ⟨[vs], calls⟩ with
      | .ok r1 m1 => .ok r1 ⟨tail :: outer, m1.calls⟩
      | .thrown e cs => .thrown e cs := by
  induction steps generalizing vs r calls with
  | nil =>
    cases vs with
    | nil => rfl
    | cons v vs => simp at hlen
  | cons s ss ih =>
    cases vs with
    | nil => simp at hlen
    | cons v vs =>
      simp only [List.length_cons, Nat.add_right_cancel_iff] at hlen
      simp only [runSteps, List.cons_append]
      rw [hs s (List.mem_cons_self _ _) r v (vs ++ tail) outer calls,
        hs s (List.mem_cons_self _ _) r v vs [] calls]
      cases s r ⟨[[v]], calls⟩ with
      | thrown e cs => rfl
      | ok r1 m1 =>
        exact ih (fun s1 h1 => hs s1 (List.mem_cons_of_mem _ h1)) vs r1 m1.calls hlen

theorem validate_composite (en efp : String) (k : Nat) (n fp : String) (fs rest : List Value)
    (outer : StreamCursor) :
    CompositeGuard.validate en efp k ((Value.composite n fp fs :: rest) :: outer) =
      if n ≠ en then .error DecodeError.TypeMismatchError
      else .ok ((fs ++ List.replicate (k - fs.length) Value.null) :: rest :: outer) := by
  simp only [CompositeGuard.validate, StreamCursor.enter_composite]

/-- A guarded list of one-value statements run on a composite of the expected
name: the outcome is that of the statements on the first `n` (padded) field
values, and the cursor ends past the composite. -/
theorem guarded_frame (name desc : String) (n : Nat)
    (steps : List (Step StreamCursor DecodeError ρ)) (hs : ∀ s ∈ steps, StepLocal s)
    (hn : steps.length = n) (shell : ρ) (fp : String) (fs rest : List Value)
    (outer : StreamCursor) (calls : List Call) :
    (specGuard.scope name desc n (runSteps steps shell)
        ⟨(Value.composite name fp fs :: rest) :: outer, calls⟩).toExcept =
      match runSteps steps shell
          ⟨[(fs ++ List.replicate (n - fs.length) Value.null).take n],
            calls ++ [Call.guard name desc n]⟩ with
      | .ok r1 _ => .ok (r1, rest :: outer)
      | .thrown e _ => .error e := by
  have hg : specGuard.ctor name desc n
      (Machine.mk ((Value.composite name fp fs :: rest) :: outer) calls).decoder =
        .ok ((fs ++ List.replicate (n - fs.length) Value.null) :: rest :: outer) := by
    simp [specGuard, validate_composite]
  rw [scope_ok specGuard name desc n _ _ _ hg]
  have hsplit := List.take_append_drop n (fs ++ List.replicate (n - fs.length) Value.null)
  have hlen : ((fs ++ List.replicate (n - fs.length) Value.null).take n).length =
      steps.length := by
    rw [List.length_take, List.length_append, List.length_replicate, hn]
    omega
  have key := runSteps_frame steps hs _
    ((fs ++ List.replicate (n - fs.length) Value.null).drop n) (rest :: outer) shell
    (calls ++ [Call.guard name desc n]) hlen
  rw [hsplit] at key
  simp only [Machine.calls] at key ⊢
  rw [key]
  cases runSteps steps shell
    ⟨[(fs ++ List.replicate (n - fs.length) Value.null).take n],
      calls ++ [Call.guard name desc n]⟩ <;> rfl

theorem state_specSteps_local (Ds : RecordDecoders K) :
    ∀ s ∈ TransactionState.fieldSteps specDecoder (specParser Ds) (specReadData Ds),
      StepLocal s := by
  intro s hs
  simp only [TransactionState.fieldSteps, List.mem_cons, List.mem_singleton, List.not_mem_nil,
    or_false] at hs
  rcases hs with rfl | rfl | rfl | rfl | rfl
  · exact read_to_stepLocal _ _ _ (owned_local _ (record_local _))
  · exact read_to_stepLocal _ _ _ string_local
  · exact read_to_stepLocal _ _ _ (owned_local _ (record_local _))
  · exact nullable_stepLocal _ _ _ int32_t_local
  · exact read_to_stepLocal _ _ _ (owned_local _ (record_local _))

/-- The `TransactionState` constructor on a composite of its name. -/
theorem specTransactionState_composite (Ds : RecordDecoders K) (u : Int) (fp : String)
    (fs rest : List Value) (outer : StreamCursor) :
    specTransactionState Ds u ((Value.composite TransactionState.name fp fs :: rest) :: outer) =
      match runSteps (TransactionState.fieldSteps specDecoder (specParser Ds) (specReadData Ds))
          (TransactionState.shell u)
          ⟨[(fs ++ List.replicate (5 - fs.length) Value.null).take 5],
            [Call.guard TransactionState.name TransactionState.descriptor_ContractState 5]⟩ with
      | .ok r1 _ => .ok (r1, rest :: outer)
      | .thrown e _ => .error e := by
  have h := guarded_frame TransactionState.name TransactionState.descriptor_ContractState 5 _
    (state_specSteps_local Ds) rfl (TransactionState.shell u) fp fs rest outer []
  rw [List.nil_append] at h
  unfold specTransactionState TransactionState.read TransactionState.decode
  rw [h]
  generalize runSteps _ (TransactionState.shell u) _ = x
  cases x <;> rfl

theorem specTransactionState_local (Ds : RecordDecoders K) (u : Int) : Local (specTransactionState Ds u) := by
  intro v rest outer
  cases v with
  | composite n fp fs =>
    by_cases hn : n = TransactionState.name
    · subst hn
      simp only [valueOf, specTransactionState_composite]
      cases runSteps (TransactionState.fieldSteps specDecoder (specParser Ds) (specReadData Ds))
        (TransactionState.shell u)
        ⟨[(fs ++ List.replicate (5 - fs.length) Value.null).take 5],
          [Call.guard TransactionState.name TransactionState.descriptor_ContractState 5]⟩ <;> rfl
    · simp [valueOf, specTransactionState, TransactionState.read, TransactionState.decode,
        CompositeTypeGuard.scope, specGuard, validate_composite, hn, Result.toExcept]
  | null => rfl
  | int n => rfl
  | str s => rfl
  | list xs => rfl

theorem tx_specSteps_local (Ds : RecordDecoders K) (u : Int) :
    ∀ s ∈ TraversableTransaction.fieldSteps specDecoder (specParser Ds) (specReadOutputs Ds u),
      StepLocal s := by
  intro s hs
  simp only [TraversableTransaction.fieldSteps, List.mem_cons, List.mem_singleton,
    List.not_mem_nil, or_false] at hs
  rcases hs with rfl | rfl | rfl | rfl | rfl | rfl | rfl | rfl
  · exact read_to_stepLocal _ _ _ (collection_local _ (owned_local _ (record_local _)))
  · exact read_to_stepLocal _ _ _ (collection_local _ (owned_local _ (record_local _)))
  · exact read_to_stepLocal _ _ _ (collection_local _ (owned_local _ (record_local _)))
  · exact read_to_stepLocal _ _ _ (collection_local _ (owned_local _ (record_local _)))
  · exact nullable_stepLocal _ _ _ (owned_local _ (record_local _))
  · exact read_to_stepLocal _ _ _
      (collection_local _ (owned_local _ (specTransactionState_local Ds u)))
  · exact read_to_stepLocal _ _ _ (collection_local _ (owned_local _ (record_local _)))
  · exact nullable_stepLocal _ _ _ (owned_local _ (record_local _))

/-- The `TraversableTransaction` constructor on a composite of its name. -/
theorem specTraversableTransaction_composite (Ds : RecordDecoders K) (u : Int) (fp : String)
    (fs rest : List Value) (outer : StreamCursor) :
    specTraversableTransaction Ds u
        ((Value.composite TraversableTransaction.name fp fs :: rest) :: outer) =
      match runSteps
          (TraversableTransaction.fieldSteps specDecoder (specParser Ds) (specReadOutputs Ds u))
          TraversableTransaction.default
          ⟨[(fs ++ List.replicate (8 - fs.length) Value.null).take 8],
            [Call.guard TraversableTransaction.name TraversableTransaction.descriptor 8]⟩ with
      | .ok r1 _ => .ok (r1, rest :: outer)
      | .thrown e _ => .error e := by
  have h := guarded_frame TraversableTransaction.name TraversableTransaction.descriptor 8 _
    (tx_specSteps_local Ds u) rfl TraversableTransaction.default fp fs rest
    outer []
  rw [List.nil_append] at h
  unfold specTraversableTransaction TraversableTransaction.read TraversableTransaction.decode
  rw [h]
  generalize runSteps _ TraversableTransaction.default _ = x
  cases x <;> rfl

theorem peek_null (c : StreamCursor)
    (h : StreamCursor.peek_tag c = .ok type_id.NULL_TYPE) :
    ∃ rest outer, c = (Value.null :: rest) :: outer := by
  match c, h with
  | (Value.null :: rest) :: outer, _ => exact ⟨rest, outer, rfl⟩
  | (Value.int _ :: _) :: _, h => simp [StreamCursor.peek_tag, Value.tag] at h
  | (Value.str _ :: _) :: _, h => simp [StreamCursor.peek_tag, Value.tag] at h
  | (Value.list _ :: _) :: _, h => simp [StreamCursor.peek_tag, Value.tag] at h
  | (Value.composite _ _ _ :: _) :: _, h => simp [StreamCursor.peek_tag, Value.tag] at h
  | [] :: _, h => simp [StreamCursor.peek_tag] at h
  | [], h => simp [StreamCursor.peek_tag] at h

theorem owned_null (dec : Rd StreamCursor DecodeError α) (c : StreamCursor)
    (h : StreamCursor.peek_tag c = .ok type_id.NULL_TYPE) :
    FieldReader.owned dec c = .error DecodeError.SchemaViolationError := by
  simp [FieldReader.owned, h]

theorem string_null (c : StreamCursor)
    (h : StreamCursor.peek_tag c = .ok type_id.NULL_TYPE) :
    FieldReader.string c = .error DecodeError.SchemaViolationError := by
  obtain ⟨rest, outer, rfl⟩ := peek_null c h
  rfl

theorem collection_null (elem : Rd StreamCursor DecodeError α) (c : StreamCursor)
    (h : StreamCursor.peek_tag c = .ok type_id.NULL_TYPE) :
    FieldReader.collection elem c = .error DecodeError.SchemaViolationError := by
  obtain ⟨rest, outer, rfl⟩ := peek_null c h
  rfl

theorem read_to_null (f : String) (rd : Rd StreamCursor DecodeError α) (set : ρ → α → ρ)
    (r : ρ) (m : Machine StreamCursor)
    (h : rd m.decoder = .error DecodeError.SchemaViolationError) :
    read_to f rd set r m =
      .thrown DecodeError.SchemaViolationError (m.calls ++ [Call.read_to f]) := by
  simp [read_to, h]

theorem specTraversableTransaction_mismatch (Ds : RecordDecoders K) (u : Int) (n fp : String)
    (fs rest : List Value) (outer : StreamCursor) (hn : n ≠ TraversableTransaction.name) :
    specTraversableTransaction Ds u ((Value.composite n fp fs :: rest) :: outer) =
      .error DecodeError.TypeMismatchError := by
  simp [specTraversableTransaction, TraversableTransaction.read, TraversableTransaction.decode,
    CompositeTypeGuard.scope, specGuard, validate_composite, hn, Result.toExcept]

theorem valueOf_record (f : Value → Except DecodeError α) (v : Value) :
    valueOf (FieldReader.record f) v = f v := by
  simp only [valueOf, FieldReader.record]
  cases f v <;> rfl

theorem valueOf_owned_ok (dec : Rd StreamCursor DecodeError α) (v : Value) (o : ptr α)
    (h : valueOf (FieldReader.owned dec) v = .ok o) :
    ∃ a, valueOf dec v = .ok a ∧ o = some a := by
  simp only [valueOf, FieldReader.owned, StreamCursor.peek_tag] at h ⊢
  by_cases ht : v.tag = type_id.NULL_TYPE
  · simp [ht] at h
  · simp only [ht, if_false] at h
    cases hd : dec [[v]] with
    | error e => simp [hd] at h
    | ok p =>
      obtain ⟨a, c1⟩ := p
      simp only [hd, Except.ok.injEq] at h
      exact ⟨a, rfl, h.symm⟩

theorem decodeAll_forall2 (elem : Rd StreamCursor DecodeError α) (xs : List Value)
    (as : List α) (h : decodeAll elem xs = .ok as) :
    List.Forall₂ (fun x a => valueOf elem x = .ok a) xs as := by
  induction xs generalizing as with
  | nil =>
    simp only [decodeAll, Except.ok.injEq] at h
    subst h
    exact List.Forall₂.nil
  | cons x xs ih =>
    simp only [decodeAll] at h
    cases hx : valueOf elem x with
    | error e => simp [hx] at h
    | ok a =>
      cases hxs : decodeAll elem xs with
      | error e => simp [hx, hxs] at h
      | ok as1 =>
        simp only [hx, hxs, Except.ok.injEq] at h
        subst h
        exact List.Forall₂.cons hx (ih as1 hxs)

theorem valueOf_collection_ok (elem : Rd StreamCursor DecodeError α) (hl : Local elem)
    (v : Value) (as : List α) (h : valueOf (FieldReader.collection elem) v = .ok as) :
    ∃ xs, v = Value.list xs ∧ List.Forall₂ (fun x a => valueOf elem x = .ok a) xs as := by
  cases v with
  | list xs =>
    refine ⟨xs, rfl, decodeAll_forall2 elem xs as ?_⟩
    simp only [valueOf, collection_list elem hl] at h
    cases hd : decodeAll elem xs with
    | error e => simp [hd] at h
    | ok as1 =>
      simp only [hd, Except.ok.injEq] at h
      rw [h]
  | null => simp [valueOf, FieldReader.collection] at h
  | int n => simp [valueOf, FieldReader.collection] at h
  | str s => simp [valueOf, FieldReader.collection] at h
  | composite n fp fs => simp [valueOf, FieldReader.collection] at h

/-- In a run of one-value statements that returns, the field written by the
`read_to` at position `k`, and by no later statement, holds the decoding of the
`k`-th value. -/
theorem read_to_field_at (steps : List (Step StreamCursor DecodeError ρ))
    (hs : ∀ s ∈ steps, StepLocal s) (k : Nat) (f : String)
    (rd : Rd StreamCursor DecodeError α) (set : ρ → α → ρ) (hrd : Local rd)
    (hk : steps[k]? = some (read_to f rd set)) (get : ρ → α)
    (hget : ∀ r a, get (set r a) = a)
    (hpost : ∀ s ∈ steps.drop (k + 1), ∀ r r1 m m1, s r m = .ok r1 m1 → get r1 = get r)
    (vs : List Value) (v : Value) (tl : List Value) (hvs : vs.length = k)
    (outer : StreamCursor) (calls : List Call) (shell r : ρ) (m : Machine StreamCursor)
    (hrun : runSteps steps shell ⟨(vs ++ v :: tl) :: outer, calls⟩ = .ok r m) :
    valueOf rd v = .ok (get r) := by
  have hlt : k < steps.length := by
    rcases Nat.lt_or_ge k steps.length with h | h
    · exact h
    · rw [List.getElem?_eq_none h] at hk; cases hk
  have hd : steps.drop k = read_to f rd set :: steps.drop (k + 1) := by
    rw [List.drop_eq_getElem_cons hlt]
    rw [List.getElem?_eq_getElem hlt] at hk
    rw [Option.some.inj hk]
  have hframe := runSteps_frame (steps.take k)
    (fun s h => hs s (List.mem_of_mem_take h)) vs (v :: tl) outer shell calls
    (by rw [List.length_take]; omega)
  rw [runSteps_take_drop k, hframe, hd] at hrun
  cases hpre : runSteps (steps.take k) shell ⟨[vs], calls⟩ with
  | thrown e cs => simp [hpre] at hrun
  | ok r1 m1 =>
    simp only [hpre] at hrun
    obtain ⟨r2, m2, h2, hrest⟩ := runSteps_cons_ok _ _ _ _ _ _ hrun
    have hp := runSteps_preserves get _ hpost _ _ _ _ hrest
    simp only [read_to] at h2
    rw [hrd v tl outer] at h2
    cases hv : valueOf rd v with
    | error e => simp [hv] at h2
    | ok a =>
      simp only [hv, Result.ok.injEq] at h2
      rw [hp, ← h2.1, hget]

theorem sibling_list (f : Value → Except DecodeError α) (v : Value) (os : List (ptr α))
    (h : valueOf (FieldReader.collection (FieldReader.owned (FieldReader.record f))) v =
      .ok os) :
    ∃ xs, v = Value.list xs ∧ os.length = xs.length ∧
      List.Forall₂ (fun x o => ∃ a, f x = .ok a ∧ o = some a) xs os := by
  obtain ⟨xs, hv, hall⟩ :=
    valueOf_collection_ok _ (owned_local _ (record_local f)) v os h
  refine ⟨xs, hv, hall.length_eq.symm, hall.imp ?_⟩
  intro x o hx
  obtain ⟨a, ha, ho⟩ := valueOf_owned_ok _ x o hx
  rw [valueOf_record] at ha
  exact ⟨a, ha, ho⟩

theorem states_list (Ds : RecordDecoders K) (u : Int) (v : Value)
    (os : List (ptr (TransactionState K K.ContractState)))
    (h : valueOf (specReadOutputs Ds u) v = .ok os) :
    ∃ xs, v = Value.list xs ∧ os.length = xs.length ∧
      List.Forall₂
        (fun x o => ∃ ts m,
          TransactionState.decode specDecoder specGuard (specParser Ds) (specReadData Ds)
            TransactionState.descriptor_ContractState u ⟨[[x]], []⟩ = .ok ts m ∧
          o = some ts ∧
          m.calls.head? =
            some (Call.guard TransactionState.name
              TransactionState.descriptor_ContractState 5))
        xs os := by
  obtain ⟨xs, hv, hall⟩ :=
    valueOf_collection_ok _ (owned_local _ (specTransactionState_local Ds u)) v os h
  refine ⟨xs, hv, hall.length_eq.symm, hall.imp ?_⟩
  intro x o hx
  obtain ⟨ts, hts, ho⟩ := valueOf_owned_ok _ x o hx
  simp only [valueOf, specTransactionState, TransactionState.read] at hts
  cases hd : TransactionState.decode specDecoder specGuard (specParser Ds) (specReadData Ds)
      TransactionState.descriptor_ContractState u ⟨[[x]], []⟩ with
  | thrown e cs => simp [hd, Result.toExcept] at hts
  | ok ts1 m =>
    simp only [hd, Result.toExcept, Except.ok.injEq] at hts
    subst hts
    refine ⟨ts1, m, rfl, ho, ?_⟩
    obtain ⟨rest, hrest⟩ := scope_calls specGuard TransactionState.name
      TransactionState.descriptor_ContractState 5 _ (TransactionState.shell u)
      (state_fieldSteps_calls_mono specDecoder (specParser Ds) (specReadData Ds))
      (Machine.mk [[x]] [])
    have hd1 : specGuard.scope TransactionState.name TransactionState.descriptor_ContractState 5
        (runSteps (TransactionState.fieldSteps specDecoder (specParser Ds) (specReadData Ds))
          (TransactionState.shell u)) ⟨[[x]], []⟩ = .ok ts1 m := hd
    rw [hd1] at hrest
    simp only [Result.calls, List.nil_append] at hrest
    rw [hrest]
    rfl

end SpecLemmas

section SpecClaims

variable {K : Classes}

/-- C2: in both generated decoders run against the protocol of the
specification, when a mandatory field (constraint, contract, data, notary of
TransactionState; attachments, commands, component_groups, inputs, outputs,
references of TraversableTransaction) is reached in a state whose next tag is
NULL, the decode throws SchemaViolationError, the read_to of that field being
the last call before the guard scope ends. -/
theorem null_in_mandatory_field (D : Decoder StreamCursor DecodeError)
    (G : CompositeTypeGuard StreamCursor DecodeError) (Ds : RecordDecoders K) (u : Int)
    (descriptor : String) :
    (∀ (f : String) (k : Nat) (m0 : Machine StreamCursor) (c : StreamCursor)
        (r : TransactionState K K.ContractState) (m1 : Machine StreamCursor),
      f ∈ ["constraint", "contract", "data", "notary"] →
      TransactionState.fields[k]? = some f →
      G.ctor TransactionState.name descriptor 5 m0.decoder = .ok c →
      runSteps ((TransactionState.fieldSteps D (specParser Ds) (specReadData Ds)).take k)
          (TransactionState.shell u)
          ⟨c, m0.calls ++ [Call.guard TransactionState.name descriptor 5]⟩ = .ok r m1 →
      StreamCursor.peek_tag m1.decoder = .ok type_id.NULL_TYPE →
      TransactionState.decode D G (specParser Ds) (specReadData Ds) descriptor u m0 =
        .thrown DecodeError.SchemaViolationError
          (m1.calls ++ [Call.read_to f, Call.guard_exit])) ∧
    (∀ (f : String) (k : Nat) (m0 : Machine StreamCursor) (c : StreamCursor)
        (r : TraversableTransaction K) (m1 : Machine StreamCursor),
      f ∈ ["attachments", "commands", "component_groups", "inputs", "outputs", "references"] →
      TraversableTransaction.fields[k]? = some f →
      G.ctor TraversableTransaction.name TraversableTransaction.descriptor 8 m0.decoder =
        .ok c →
      runSteps ((TraversableTransaction.fieldSteps D (specParser Ds) (specReadOutputs Ds u)).take k)
          TraversableTransaction.default
          ⟨c, m0.calls ++
            [Call.guard TraversableTransaction.name TraversableTransaction.descriptor 8]⟩ =
        .ok r m1 →
      StreamCursor.peek_tag m1.decoder = .ok type_id.NULL_TYPE →
      TraversableTransaction.decode D G (specParser Ds) (specReadOutputs Ds u) m0 =
        .thrown DecodeError.SchemaViolationError
          (m1.calls ++ [Call.read_to f, Call.guard_exit])) := by
  constructor
  · intro f k m0 c r m1 hf hk hg hreach hnull
    have key : ∀ s, (TransactionState.fieldSteps D (specParser Ds) (specReadData Ds))[k]? =
        some s →
        s r m1 = .thrown DecodeError.SchemaViolationError (m1.calls ++ [Call.read_to f]) →
        TransactionState.decode D G (specParser Ds) (specReadData Ds) descriptor u m0 =
          .thrown DecodeError.SchemaViolationError
            (m1.calls ++ [Call.read_to f, Call.guard_exit]) := by
      intro s hs hthrown
      have h := scope_step_thrown G _ _ _ _ _ m0 c k s r m1 _ _ hg hreach hs hthrown
      simpa [TransactionState.decode] using h
    simp only [List.mem_cons, List.mem_singleton, List.not_mem_nil, or_false] at hf
    rcases k with _ | _ | _ | _ | _ | k
    · have hf0 : f = "constraint" := by simpa [TransactionState.fields] using hk.symm
      subst hf0
      exact key (read_to "constraint" (specParser Ds).AttachmentConstraint (fun r v => { r with constraint := v })) rfl
        (read_to_null _ _ _ _ _ (owned_null _ _ hnull))
    · have hf0 : f = "contract" := by simpa [TransactionState.fields] using hk.symm
      subst hf0
      exact key (read_to "contract" (specParser Ds).string (fun r v => { r with contract := v })) rfl
        (read_to_null _ _ _ _ _ (string_null _ hnull))
    · have hf0 : f = "data" := by simpa [TransactionState.fields] using hk.symm
      subst hf0
      exact key (read_to "data" (specReadData Ds) (fun r v => { r with data := v })) rfl
        (read_to_null _ _ _ _ _ (owned_null _ _ hnull))
    · have hf0 : f = "encumbrance" := by simpa [TransactionState.fields] using hk.symm
      subst hf0
      simp at hf
    · have hf0 : f = "notary" := by simpa [TransactionState.fields] using hk.symm
      subst hf0
      exact key (read_to "notary" (specParser Ds).Party (fun r v => { r with notary := v })) rfl
        (read_to_null _ _ _ _ _ (owned_null _ _ hnull))
    · simp [TransactionState.fields] at hk
  · intro f k m0 c r m1 hf hk hg hreach hnull
    have key : ∀ s,
        (TraversableTransaction.fieldSteps D (specParser Ds) (specReadOutputs Ds u))[k]? =
          some s →
        s r m1 = .thrown DecodeError.SchemaViolationError (m1.calls ++ [Call.read_to f]) →
        TraversableTransaction.decode D G (specParser Ds) (specReadOutputs Ds u) m0 =
          .thrown DecodeError.SchemaViolationError
            (m1.calls ++ [Call.read_to f, Call.guard_exit]) := by
      intro s hs hthrown
      have h := scope_step_thrown G _ _ _ _ _ m0 c k s r m1 _ _ hg hreach hs hthrown
      simpa [TraversableTransaction.decode] using h
    simp only [List.mem_cons, List.mem_singleton, List.not_mem_nil, or_false] at hf
    rcases k with _ | _ | _ | _ | _ | _ | _ | _ | k
    · have hf0 : f = "attachments" := by
        simpa [TraversableTransaction.fields] using hk.symm
      subst hf0
      exact key (read_to "attachments" (specParser Ds).list_SecureHash (fun r v => { r with attachments := v })) rfl
        (read_to_null _ _ _ _ _ (collection_null _ _ hnull))
    · have hf0 : f = "commands" := by
        simpa [TraversableTransaction.fields] using hk.symm
      subst hf0
      exact key (read_to "commands" (specParser Ds).list_Command (fun r v => { r with commands := v })) rfl
        (read_to_null _ _ _ _ _ (collection_null _ _ hnull))
    · have hf0 : f = "component_groups" := by
        simpa [TraversableTransaction.fields] using hk.symm
      subst hf0
      exact key (read_to "component_groups" (specParser Ds).list_ComponentGroup (fun r v => { r with component_groups := v })) rfl
        (read_to_null _ _ _ _ _ (collection_null _ _ hnull))
    · have hf0 : f = "inputs" := by
        simpa [TraversableTransaction.fields] using hk.symm
      subst hf0
      exact key (read_to "inputs" (specParser Ds).list_StateRef (fun r v => { r with inputs := v })) rfl
        (read_to_null _ _ _ _ _ (collection_null _ _ hnull))
    · have hf0 : f = "notary" := by simpa [TraversableTransaction.fields] using hk.symm
      subst hf0
      simp at hf
    · have hf0 : f = "outputs" := by
        simpa [TraversableTransaction.fields] using hk.symm
      subst hf0
      exact key (read_to "outputs" (specReadOutputs Ds u) (fun r v => { r with outputs := v })) rfl
        (read_to_null _ _ _ _ _ (collection_null _ _ hnull))
    · have hf0 : f = "references" := by
        simpa [TraversableTransaction.fields] using hk.symm
      subst hf0
      exact key (read_to "references" (specParser Ds).list_StateRef (fun r v => { r with references := v })) rfl
        (read_to_null _ _ _ _ _ (collection_null _ _ hnull))
    · have hf0 : f = "time_window" := by simpa [TraversableTransaction.fields] using hk.symm
      subst hf0
      simp at hf
    · simp [TraversableTransaction.fields] at hk

/-- C5: in both generated decoders guarded by the CompositeGuard of the
specification, an envelope whose composite name differs from the expected name
literal makes the decode throw TypeMismatchError with the guard constructor as
the only call: no field is read and no record is returned. -/
theorem name_mismatch_rejected (D : Decoder StreamCursor DecodeError)
    (P : Parser StreamCursor DecodeError K)
    (read_data : Rd StreamCursor DecodeError (ptr K.ContractState))
    (read_outputs : Rd StreamCursor DecodeError (List (ptr (TransactionState K K.ContractState))))
    (descriptor : String) (u : Int) :
    (∀ (n fp : String) (fs rest : List Value) (outer : StreamCursor) (calls : List Call),
      n ≠ "net.corda.core.contracts.TransactionState<net.corda.core.contracts.ContractState>" →
      TransactionState.decode D specGuard P read_data descriptor u
          ⟨(Value.composite n fp fs :: rest) :: outer, calls⟩ =
        .thrown DecodeError.TypeMismatchError
          (calls ++ [Call.guard TransactionState.name descriptor 5])) ∧
    (∀ (n fp : String) (fs rest : List Value) (outer : StreamCursor) (calls : List Call),
      n ≠ "class net.corda.core.transactions.TraversableTransaction" →
      TraversableTransaction.decode D specGuard P read_outputs
          ⟨(Value.composite n fp fs :: rest) :: outer, calls⟩ =
        .thrown DecodeError.TypeMismatchError
          (calls ++
            [Call.guard TraversableTransaction.name TraversableTransaction.descriptor 8])) := by
  constructor
  · intro n fp fs rest outer calls hn
    have hn1 : n ≠ TransactionState.name := hn
    exact scope_guard_thrown specGuard _ _ _ _ _ _
      (by simp [specGuard, validate_composite, hn1])
  · intro n fp fs rest outer calls hn
    have hn1 : n ≠ TraversableTransaction.name := hn
    exact scope_guard_thrown specGuard _ _ _ _ _ _
      (by simp [specGuard, validate_composite, hn1])

/-- C8: against the protocol of the specification, when a TraversableTransaction
envelope decodes to a record, each of its six list fields (attachments,
commands, component_groups, inputs, outputs, references) is encoded as a
collection, and the decoded list has exactly as many elements as the
collection, element i being the decoding of the i-th encoded value; each
element of outputs is the object returned by one run of the TransactionState
constructor on that value, a run whose first call is its own guard with
expected count 5. -/
theorem nested_collections_in_order (Ds : RecordDecoders K) (u : Int) (n fp : String)
    (v0 v1 v2 v3 v4 v5 v6 : Value) (tail rest : List Value) (outer : StreamCursor)
    (r : TraversableTransaction K) (c1 : StreamCursor)
    (hok : specTraversableTransaction Ds u
        ((Value.composite n fp (v0 :: v1 :: v2 :: v3 :: v4 :: v5 :: v6 :: tail) :: rest) ::
          outer) = .ok (r, c1)) :
    ∃ a0 a1 a2 a3 a5 a6,
      v0 = Value.list a0 ∧ v1 = Value.list a1 ∧ v2 = Value.list a2 ∧ v3 = Value.list a3 ∧
      v5 = Value.list a5 ∧ v6 = Value.list a6 ∧
      r.attachments.length = a0.length ∧
      List.Forall₂ (fun x o => ∃ a, Ds.SecureHash x = .ok a ∧ o = some a) a0 r.attachments ∧
      r.commands.length = a1.length ∧
      List.Forall₂ (fun x o => ∃ a, Ds.Command x = .ok a ∧ o = some a) a1 r.commands ∧
      r.component_groups.length = a2.length ∧
      List.Forall₂ (fun x o => ∃ a, Ds.ComponentGroup x = .ok a ∧ o = some a) a2
        r.component_groups ∧
      r.inputs.length = a3.length ∧
      List.Forall₂ (fun x o => ∃ a, Ds.StateRef x = .ok a ∧ o = some a) a3 r.inputs ∧
      r.outputs.length = a5.length ∧
      List.Forall₂
        (fun x o => ∃ ts m,
          TransactionState.decode specDecoder specGuard (specParser Ds) (specReadData Ds)
            TransactionState.descriptor_ContractState u ⟨[[x]], []⟩ = .ok ts m ∧
          o = some ts ∧
          m.calls.head? =
            some (Call.guard TransactionState.name
              TransactionState.descriptor_ContractState 5))
        a5 r.outputs ∧
      r.references.length = a6.length ∧
      List.Forall₂ (fun x o => ∃ a, Ds.StateRef x = .ok a ∧ o = some a) a6 r.references := by
  by_cases hn : n = TraversableTransaction.name
  swap
  · rw [specTraversableTransaction_mismatch Ds u n fp _ rest outer hn] at hok
    cases hok
  subst hn
  rw [specTraversableTransaction_composite] at hok
  obtain ⟨tl, htl⟩ : ∃ tl, ((v0 :: v1 :: v2 :: v3 :: v4 :: v5 :: v6 :: tail) ++
      List.replicate (8 - (v0 :: v1 :: v2 :: v3 :: v4 :: v5 :: v6 :: tail).length)
        Value.null).take 8 = v0 :: v1 :: v2 :: v3 :: v4 :: v5 :: v6 :: tl :=
    ⟨List.take 1 (tail ++
        List.replicate (8 - (v0 :: v1 :: v2 :: v3 :: v4 :: v5 :: v6 :: tail).length) Value.null),
      by simp only [List.cons_append, List.take_succ_cons]⟩
  rw [htl] at hok
  cases hrun : runSteps
      (TraversableTransaction.fieldSteps specDecoder (specParser Ds) (specReadOutputs Ds u))
      TraversableTransaction.default
      ⟨[v0 :: v1 :: v2 :: v3 :: v4 :: v5 :: v6 :: tl],
        [Call.guard TraversableTransaction.name TraversableTransaction.descriptor 8]⟩ with
  | thrown e cs => simp [hrun] at hok
  | ok r1 m1 =>
  simp only [hrun, Except.ok.injEq, Prod.mk.injEq] at hok
  obtain ⟨hr, _⟩ := hok
  subst hr
  have h0 := read_to_field_at _ (tx_specSteps_local Ds u) 0 "attachments"
    (specParser Ds).list_SecureHash (fun r v => { r with attachments := v })
    (collection_local _ (owned_local _ (record_local _))) rfl
    (fun r => r.attachments) (fun _ _ => rfl)
    (by
      intro s hs
      simp only [TraversableTransaction.fieldSteps, List.drop, List.mem_cons,
        List.mem_singleton, List.not_mem_nil, or_false] at hs
      rcases hs with rfl | rfl | rfl | rfl | rfl | rfl | rfl <;>
        first
        | exact fun _ _ _ _ h => read_to_preserves _ h (fun _ _ => rfl)
        | exact fun _ _ _ _ h => nullable_preserves _ h (fun _ _ => rfl))
    [] v0 (v1 :: v2 :: v3 :: v4 :: v5 :: v6 :: tl) rfl [] _ _ _ _ hrun
  have h1 := read_to_field_at _ (tx_specSteps_local Ds u) 1 "commands"
    (specParser Ds).list_Command (fun r v => { r with commands := v })
    (collection_local _ (owned_local _ (record_local _))) rfl
    (fun r => r.commands) (fun _ _ => rfl)
    (by
      intro s hs
      simp only [TraversableTransaction.fieldSteps, List.drop, List.mem_cons,
        List.mem_singleton, List.not_mem_nil, or_false] at hs
      rcases hs with rfl | rfl | rfl | rfl | rfl | rfl <;>
        first
        | exact fun _ _ _ _ h => read_to_preserves _ h (fun _ _ => rfl)
        | exact fun _ _ _ _ h => nullable_preserves _ h (fun _ _ => rfl))
    [v0] v1 (v2 :: v3 :: v4 :: v5 :: v6 :: tl) rfl [] _ _ _ _ hrun
  have h2 := read_to_field_at _ (tx_specSteps_local Ds u) 2 "component_groups"
    (specParser Ds).list_ComponentGroup (fun r v => { r with component_groups := v })
    (collection_local _ (owned_local _ (record_local _))) rfl
    (fun r => r.component_groups) (fun _ _ => rfl)
    (by
      intro s hs
      simp only [TraversableTransaction.fieldSteps, List.drop, List.mem_cons,
        List.mem_singleton, List.not_mem_nil, or_false] at hs
      rcases hs with rfl | rfl | rfl | rfl | rfl <;>
        first
        | exact fun _ _ _ _ h => read_to_preserves _ h (fun _ _ => rfl)
        | exact fun _ _ _ _ h => nullable_preserves _ h (fun _ _ => rfl))
    [v0, v1] v2 (v3 :: v4 :: v5 :: v6 :: tl) rfl [] _ _ _ _ hrun
  have h3 := read_to_field_at _ (tx_specSteps_local Ds u) 3 "inputs"
    (specParser Ds).list_StateRef (fun r v => { r with inputs := v })
    (collection_local _ (owned_local _ (record_local _))) rfl
    (fun r => r.inputs) (fun _ _ => rfl)
    (by
      intro s hs
      simp only [TraversableTransaction.fieldSteps, List.drop, List.mem_cons,
        List.mem_singleton, List.not_mem_nil, or_false] at hs
      rcases hs with rfl | rfl | rfl | rfl <;>
        first
        | exact fun _ _ _ _ h => read_to_preserves _ h (fun _ _ => rfl)
        | exact fun _ _ _ _ h => nullable_preserves _ h (fun _ _ => rfl))
    [v0, v1, v2] v3 (v4 :: v5 :: v6 :: tl) rfl [] _ _ _ _ hrun
  have h5 := read_to_field_at _ (tx_specSteps_local Ds u) 5 "outputs"
    (specReadOutputs Ds u) (fun r v => { r with outputs := v })
    (collection_local _ (owned_local _ (specTransactionState_local Ds u))) rfl
    (fun r => r.outputs) (fun _ _ => rfl)
    (by
      intro s hs
      simp only [TraversableTransaction.fieldSteps, List.drop, List.mem_cons,
        List.mem_singleton, List.not_mem_nil, or_false] at hs
      rcases hs with rfl | rfl <;>
        first
        | exact fun _ _ _ _ h => read_to_preserves _ h (fun _ _ => rfl)
        | exact fun _ _ _ _ h => nullable_preserves _ h (fun _ _ => rfl))
    [v0, v1, v2, v3, v4] v5 (v6 :: tl) rfl [] _ _ _ _ hrun
  have h6 := read_to_field_at _ (tx_specSteps_local Ds u) 6 "references"
    (specParser Ds).list_StateRef (fun r v => { r with references := v })
    (collection_local _ (owned_local _ (record_local _))) rfl
    (fun r => r.references) (fun _ _ => rfl)
    (by
      intro s hs
      simp only [TraversableTransaction.fieldSteps, List.drop, List.mem_cons,
        List.mem_singleton, List.not_mem_nil, or_false] at hs
      subst hs
      exact fun _ _ _ _ h => nullable_preserves _ h (fun _ _ => rfl))
    [v0, v1, v2, v3, v4, v5] v6 tl rfl [] _ _ _ _ hrun
  obtain ⟨a0, e0, l0, f0⟩ := sibling_list _ _ _ h0
  obtain ⟨a1, e1, l1, f1⟩ := sibling_list _ _ _ h1
  obtain ⟨a2, e2, l2, f2⟩ := sibling_list _ _ _ h2
  obtain ⟨a3, e3, l3, f3⟩ := sibling_list _ _ _ h3
  obtain ⟨a5, e5, l5, f5⟩ := states_list Ds u _ _ h5
  obtain ⟨a6, e6, l6, f6⟩ := sibling_list _ _ _ h6
  exact ⟨a0, a1, a2, a3, a5, a6, e0, e1, e2, e3, e5, e6, l0, f0, l1, f1, l2, f2, l3, f3, l5, f5,
    l6, f6⟩

end SpecClaims

/-! ## Part 5: the theorems at concrete envelopes -/

section Witnesses

/-- Witness for C2: `demoStateNullContract` and `demoTxNullAttachments` are
refused with SchemaViolationError at the NULL field. -/
theorem null_in_mandatory_field_witness :
    TransactionState.decode specDecoder specGuard (specParser demoDecoders)
        (specReadData demoDecoders) TransactionState.descriptor_ContractState 7
        ⟨[[demoStateNullContract]], []⟩ =
      .thrown DecodeError.SchemaViolationError
        [demoStateGuard, Call.read_to "constraint", Call.read_to "contract",
          Call.guard_exit] ∧
    TraversableTransaction.decode specDecoder specGuard (specParser demoDecoders)
        (specReadOutputs demoDecoders 7) ⟨[[demoTxNullAttachments]], []⟩ =
      .thrown DecodeError.SchemaViolationError
        [demoTxGuard, Call.read_to "attachments", Call.guard_exit] :=
  have h := null_in_mandatory_field specDecoder specGuard demoDecoders 7
    TransactionState.descriptor_ContractState
  ⟨h.1 "contract" 1 ⟨[[demoStateNullContract]], []⟩
      [[demoObj 1, .null, demoObj 2, .null, demoObj 3], []] demoStateAt1 demoStateMachineAt1
      (by simp) rfl rfl rfl rfl,
    h.2 "attachments" 0 ⟨[[demoTxNullAttachments]], []⟩
      [[.null, .list [], .list [], .list [], .null, .list [], .list [], .null], []]
      TraversableTransaction.default
      ⟨[[.null, .list [], .list [], .list [], .null, .list [], .list [], .null], []],
        [demoTxGuard]⟩
      (by simp) rfl rfl rfl rfl⟩

/-- Witness for C3: the chains of calls by which `demoState` and `demoTx`
decode, the nullable fields each at a NULL tag. -/
theorem fields_once_in_order_witness :
    TransactionState.decode specDecoder specGuard (specParser demoDecoders)
        (specReadData demoDecoders) TransactionState.descriptor_ContractState 7
        ⟨[[demoState]], []⟩ =
      .ok demoStateRecord
        ⟨[[]], [demoStateGuard, Call.read_to "constraint", Call.read_to "contract",
          Call.read_to "data", Call.next, Call.read_to "notary", Call.guard_exit]⟩ ∧
    TraversableTransaction.decode specDecoder specGuard (specParser demoDecoders)
        (specReadOutputs demoDecoders 7) ⟨[[demoTx]], []⟩ =
      .ok demoTxRecord ⟨[[]], demoTxMachineAt7.calls ++ [Call.next, Call.guard_exit]⟩ :=
  have h := fields_once_in_order specDecoder specGuard (specParser demoDecoders)
    (specReadData demoDecoders) (specReadOutputs demoDecoders 7)
    TransactionState.descriptor_ContractState 7
  ⟨(h.1 _ _ _).mpr
      ⟨[demoStateFields, []], some [.int 1], [[.str "c", demoObj 2, .null, demoObj 3], []], "c",
        [[demoObj 2, .null, demoObj 3], []], some [.int 2], [[.null, demoObj 3], []], 7,
        Call.next, [[demoObj 3], []], some [.int 3], [[], []], rfl, rfl, rfl, rfl,
        Or.inl ⟨rfl, rfl, rfl, rfl⟩, rfl, rfl, rfl⟩,
    (h.2 _ _ _).mpr
      ⟨[demoTxFields, []], [some [.int 10]],
        [[.list [], .list [], .list [demoObj 11], .null, .list [demoState, demoState],
          .list [], .null], []],
        [], [[.list [], .list [demoObj 11], .null, .list [demoState, demoState], .list [],
          .null], []],
        [], [[.list [demoObj 11], .null, .list [demoState, demoState], .list [], .null], []],
        [some [.int 11]], [[.null, .list [demoState, demoState], .list [], .null], []],
        none, Call.next, [[.list [demoState, demoState], .list [], .null], []],
        [some demoStateRecord, some demoStateRecord], [[.list [], .null], []],
        [], [[.null], []], none, Call.next, [[], []],
        rfl, rfl, rfl, rfl, rfl, Or.inl ⟨rfl, rfl, rfl, rfl⟩, rfl, rfl,
        Or.inl ⟨rfl, rfl, rfl, rfl⟩, rfl, rfl⟩⟩

/-- Witness for C4: a value that is no composite fails in the guard; the NULL
contract of `demoStateNullContract` fails in its field statement; `demoState`
decodes. -/
theorem errors_propagate_witness :
    TransactionState.decode specDecoder specGuard (specParser demoDecoders)
        (specReadData demoDecoders) TransactionState.descriptor_ContractState 7
        ⟨[[Value.int 7]], []⟩ =
      .thrown DecodeError.SchemaViolationError [demoStateGuard] ∧
    TransactionState.decode specDecoder specGuard (specParser demoDecoders)
        (specReadData demoDecoders) TransactionState.descriptor_ContractState 7
        ⟨[[demoStateNullContract]], []⟩ =
      .thrown DecodeError.SchemaViolationError
        ([demoStateGuard, Call.read_to "constraint", Call.read_to "contract"] ++
          [Call.guard_exit]) ∧
    (∃ c m1,
      specGuard.ctor TransactionState.name TransactionState.descriptor_ContractState 5
        [[demoState]] = .ok c ∧
      runSteps
        (TransactionState.fieldSteps specDecoder (specParser demoDecoders)
          (specReadData demoDecoders))
        (TransactionState.shell 7) ⟨c, [demoStateGuard]⟩ = .ok demoStateRecord m1) ∧
    TraversableTransaction.decode specDecoder specGuard (specParser demoDecoders)
        (specReadOutputs demoDecoders 7) ⟨[[Value.null]], []⟩ =
      .thrown DecodeError.SchemaViolationError [demoTxGuard] ∧
    TraversableTransaction.decode specDecoder specGuard (specParser demoDecoders)
        (specReadOutputs demoDecoders 7) ⟨[[demoTxNullAttachments]], []⟩ =
      .thrown DecodeError.SchemaViolationError
        ([demoTxGuard, Call.read_to "attachments"] ++ [Call.guard_exit]) :=
  have h := errors_propagate specDecoder specGuard (specParser demoDecoders)
    (specReadData demoDecoders) (specReadOutputs demoDecoders 7)
    TransactionState.descriptor_ContractState 7
  ⟨h.1.1 ⟨[[Value.int 7]], []⟩ DecodeError.SchemaViolationError rfl,
    (h.1.2.1 ⟨[[demoStateNullContract]], []⟩
      [[demoObj 1, .null, demoObj 2, .null, demoObj 3], []] 1
      (read_to "contract" (specParser demoDecoders).string (fun r v => { r with contract := v }))
      demoStateAt1 demoStateMachineAt1 DecodeError.SchemaViolationError
      [demoStateGuard, Call.read_to "constraint", Call.read_to "contract"]
      rfl rfl rfl rfl).1,
    h.1.2.2 ⟨[[demoState]], []⟩ demoStateRecord
      ⟨[[]], [demoStateGuard, Call.read_to "constraint", Call.read_to "contract",
        Call.read_to "data", Call.next, Call.read_to "notary", Call.guard_exit]⟩ rfl,
    h.2.1 ⟨[[Value.null]], []⟩ DecodeError.SchemaViolationError rfl,
    (h.2.2.1 ⟨[[demoTxNullAttachments]], []⟩
      [[.null, .list [], .list [], .list [], .null, .list [], .list [], .null], []] 0
      (read_to "attachments" (specParser demoDecoders).list_SecureHash
        (fun r v => { r with attachments := v }))
      TraversableTransaction.default
      ⟨[[.null, .list [], .list [], .list [], .null, .list [], .list [], .null], []],
        [demoTxGuard]⟩
      DecodeError.SchemaViolationError [demoTxGuard, Call.read_to "attachments"]
      rfl rfl rfl rfl).1⟩

/-- Witness for C5: envelopes named "X" are refused by both decoders. -/
theorem name_mismatch_rejected_witness :
    TransactionState.decode specDecoder specGuard (specParser demoDecoders)
        (specReadData demoDecoders) TransactionState.descriptor_ContractState 7
        ⟨[[demoObj 4]], []⟩ =
      .thrown DecodeError.TypeMismatchError [demoStateGuard] ∧
    TraversableTransaction.decode specDecoder specGuard (specParser demoDecoders)
        (specReadOutputs demoDecoders 7) ⟨[[demoObj 4]], []⟩ =
      .thrown DecodeError.TypeMismatchError [demoTxGuard] :=
  have h := name_mismatch_rejected specDecoder (specParser demoDecoders)
    (specReadData demoDecoders) (specReadOutputs demoDecoders 7)
    TransactionState.descriptor_ContractState 7
  ⟨h.1 "X" "fp" [.int 4] [] [] [] (by decide), h.2 "X" "fp" [.int 4] [] [] [] (by decide)⟩

/-- Witness for C8: the two nested states of `demoTx` come out as two elements. -/
theorem nested_collections_in_order_witness :
    ∃ a0 a1 a2 a3 a5 a6,
      Value.list [demoObj 10] = Value.list a0 ∧ Value.list [] = Value.list a1 ∧
      Value.list [] = Value.list a2 ∧ Value.list [demoObj 11] = Value.list a3 ∧
      Value.list [demoState, demoState] = Value.list a5 ∧ Value.list [] = Value.list a6 ∧
      demoTxRecord.attachments.length = a0.length ∧
      List.Forall₂ (fun x o => ∃ a, demoDecoders.SecureHash x = .ok a ∧ o = some a) a0
        demoTxRecord.attachments ∧
      demoTxRecord.commands.length = a1.length ∧
      List.Forall₂ (fun x o => ∃ a, demoDecoders.Command x = .ok a ∧ o = some a) a1
        demoTxRecord.commands ∧
      demoTxRecord.component_groups.length = a2.length ∧
      List.Forall₂ (fun x o => ∃ a, demoDecoders.ComponentGroup x = .ok a ∧ o = some a) a2
        demoTxRecord.component_groups ∧
      demoTxRecord.inputs.length = a3.length ∧
      List.Forall₂ (fun x o => ∃ a, demoDecoders.StateRef x = .ok a ∧ o = some a) a3
        demoTxRecord.inputs ∧
      demoTxRecord.outputs.length = a5.length ∧
      List.Forall₂
        (fun x o => ∃ ts m,
          TransactionState.decode specDecoder specGuard (specParser demoDecoders)
            (specReadData demoDecoders) TransactionState.descriptor_ContractState 7
            ⟨[[x]], []⟩ = .ok ts m ∧
          o = some ts ∧
          m.calls.head? =
            some (Call.guard TransactionState.name
              TransactionState.descriptor_ContractState 5))
        a5 demoTxRecord.outputs ∧
      demoTxRecord.references.length = a6.length ∧
      List.Forall₂ (fun x o => ∃ a, demoDecoders.StateRef x = .ok a ∧ o = some a) a6
        demoTxRecord.references :=
  nested_collections_in_order demoDecoders 7 TraversableTransaction.name "fp"
    (.list [demoObj 10]) (.list []) (.list []) (.list [demoObj 11]) .null
    (.list [demoState, demoState]) (.list []) [.null] [] [] demoTxRecord [[]] rfl

/-- Witness for C9: a value that is no composite makes both guards throw before
any reader runs; on `demoTxNullAttachments` the guard accepts and the first
field is read from the cursor it returned. -/
theorem guard_first_with_own_triple_witness :
    TransactionState.decode specDecoder specGuard (specParser demoDecoders)
        (specReadData demoDecoders) TransactionState.descriptor_ContractState 7
        ⟨[[Value.int 7]], []⟩ =
      .thrown DecodeError.SchemaViolationError [demoStateGuard] ∧
    TraversableTransaction.decode specDecoder specGuard (specParser demoDecoders)
        (specReadOutputs demoDecoders 7) ⟨[[Value.int 7]], []⟩ =
      .thrown DecodeError.SchemaViolationError [demoTxGuard] ∧
    TraversableTransaction.decode specDecoder specGuard (specParser demoDecoders)
        (specReadOutputs demoDecoders 7) ⟨[[demoTxNullAttachments]], []⟩ =
      .thrown DecodeError.SchemaViolationError
        [demoTxGuard, Call.read_to "attachments", Call.guard_exit] :=
  have h := guard_first_with_own_triple specDecoder specGuard (specParser demoDecoders)
    (specReadData demoDecoders) (specReadOutputs demoDecoders 7) 7
  ⟨h.1.1 ⟨[[Value.int 7]], []⟩ DecodeError.SchemaViolationError rfl,
    h.2.1 ⟨[[Value.int 7]], []⟩ DecodeError.SchemaViolationError rfl,
    h.2.2.1 ⟨[[demoTxNullAttachments]], []⟩
      [[.null, .list [], .list [], .list [], .null, .list [], .list [], .null], []]
      DecodeError.SchemaViolationError rfl rfl⟩

/-- Witness for C10: with a data reader for the template argument `Int`, a
value that is no composite is refused by the guard, and `demoState` is decoded
up to the data reader, whose value is the data field. -/
theorem template_argument_independence_witness :
    TransactionState.decode specDecoder specGuard (specParser demoDecoders)
        (fun c => (.ok (some (5 : Int), StreamCursor.advance_null c) :
          Except DecodeError (ptr Int × StreamCursor)))
        "any" 7 ⟨[[Value.int 7]], []⟩ =
      .thrown DecodeError.SchemaViolationError [Call.guard TransactionState.name "any" 5] ∧
    (∃ c0 v1 c1 v2 c2 c3,
      specGuard.ctor TransactionState.name "any" 5 [[demoState]] = .ok c0 ∧
      (specParser demoDecoders).AttachmentConstraint c0 = .ok (v1, c1) ∧
      (specParser demoDecoders).string c1 = .ok (v2, c2) ∧
      (.ok (some (5 : Int), StreamCursor.advance_null c2) :
          Except DecodeError (ptr Int × StreamCursor)) = .ok (some 5, c3)) :=
  have h := template_argument_independence specDecoder specGuard (specParser demoDecoders)
  ⟨h.1 Int (fun c => .ok (some 5, StreamCursor.advance_null c)) "any" 7 ⟨[[Value.int 7]], []⟩
      DecodeError.SchemaViolationError rfl,
    h.2.1 Int (fun c => .ok (some 5, StreamCursor.advance_null c)) "any" 7 ⟨[[demoState]], []⟩
      { constraint := some [.int 1], contract := "c", data := some 5, encumbrance := 7,
        notary := some [.int 3] }
      ⟨[[]], [Call.guard TransactionState.name "any" 5, Call.read_to "constraint",
        Call.read_to "contract", Call.read_to "data", Call.next, Call.read_to "notary",
        Call.guard_exit]⟩ rfl⟩

end Witnesses

end Corda
